import Mathlib

/-!
Saccade / RF-mapping trial generation (RFMappingTrial.cpp)

A shallow embedding of the trial construction, classification and generation
code of `RFMappingTrial.cpp`, followed by theorems about it.

Conventions of the embedding:

* C++ `double` values are rationals (`ℚ`). The geometry of trial construction and
  midline classification is stated in exact arithmetic. The message-code functions
  `angleToCode` and `radiusToCode` convert a difference to `int`, so there the
  subtraction is the IEEE-754 binary64 one: the exact difference rounded to the
  nearest double, ties to even (`doubleSub`).
* `etu::RandCoinFlip()` and the `rand()` draws of `std::random_shuffle` are
  explicit streams: `coin k` is the result of the k-th coin flip of a run,
  `rnd k` the k-th draw of the shuffle.
* The global settings object (`g_pTrialSaccades` / `m_trialSaccades`) is an
  explicit record passed to the functions that read it.
* `AfxMessageBox` is recorded as the text it would display.
-/

namespace RFMapping

/-! ## Data model -/

/-- Which eye is being stimulated (`STIM_EYE` of the header: right = 0, left = 1). -/
inductive STIM_EYE where
  | EYE_RIGHT
  | EYE_LEFT
  deriving DecidableEq, Repr

/-- Modelled from the spec: the declaration of `STIM_CODE` (in `SaccadeTrial.h`) is
missing from the sources; the nine enumerators are the ones `stimCodeToString`
switches over, in that order, and the enumeration is closed. -/
inductive STIM_CODE where
  | CODE_C_RED_P_RED
  | CODE_C_RED_P_BLUE
  | CODE_C_BLUE_P_RED
  | CODE_C_BLUE_P_BLUE
  | CODE_C_RED_P_PURPLE
  | CODE_C_BLUE_P_PURPLE
  | CODE_C_PURPLE_P_RED
  | CODE_C_PURPLE_P_BLUE
  | CODE_C_PURPLE_P_PURPLE
  deriving DecidableEq, Repr

open STIM_EYE STIM_CODE

/-- Modelled from the spec: `CSaccadeTrial::isCenterRed` is declared in the missing
`SaccadeTrial.h`; it holds when the centre component of the code is red. -/
def isCenterRed : STIM_CODE → Bool
  | CODE_C_RED_P_RED => true
  | CODE_C_RED_P_BLUE => true
  | CODE_C_RED_P_PURPLE => true
  | _ => false

/-- Modelled from the spec: `CSaccadeTrial::isCenterBlue` is declared in the missing
`SaccadeTrial.h`; it holds when the centre component of the code is blue. -/
def isCenterBlue : STIM_CODE → Bool
  | CODE_C_BLUE_P_RED => true
  | CODE_C_BLUE_P_BLUE => true
  | CODE_C_BLUE_P_PURPLE => true
  | _ => false

/-- Modelled from the spec: `CSaccadeTrial::isPeriphRed` is declared in the missing
`SaccadeTrial.h`; it holds when the peripheral component of the code is red. -/
def isPeriphRed : STIM_CODE → Bool
  | CODE_C_RED_P_RED => true
  | CODE_C_BLUE_P_RED => true
  | CODE_C_PURPLE_P_RED => true
  | _ => false

/-- Modelled from the spec: `CSaccadeTrial::isPeriphBlue` is declared in the missing
`SaccadeTrial.h`; it holds when the peripheral component of the code is blue. -/
def isPeriphBlue : STIM_CODE → Bool
  | CODE_C_RED_P_BLUE => true
  | CODE_C_BLUE_P_BLUE => true
  | CODE_C_PURPLE_P_BLUE => true
  | _ => false

/-- The peripheral component of a code is purple: neither red nor blue. -/
def isPeriphPurple (c : STIM_CODE) : Bool := !isPeriphRed c && !isPeriphBlue c

/-- The centre component of a code is purple: neither red nor blue. -/
def isCenterPurple (c : STIM_CODE) : Bool := !isCenterRed c && !isCenterBlue c

/-- Modelled from the spec: the integer range `CODE_C_RED_P_RED .. CODE_C_BLUE_P_BLUE`
that `GenerateTrials` sweeps; with the enumerator values missing, it is the four
plain codes in the fixed order RedRed, RedBlue, BlueRed, BlueBlue. -/
def plainCodes : List STIM_CODE :=
  [CODE_C_RED_P_RED, CODE_C_RED_P_BLUE, CODE_C_BLUE_P_RED, CODE_C_BLUE_P_BLUE]

/-- The integer range `EYE_RIGHT .. EYE_LEFT` swept by `GenerateTrials`. -/
def sweptEyes : List STIM_EYE := [EYE_RIGHT, EYE_LEFT]

/-- One trial: the fields of `CSaccadeTrial`, set once by the constructor. -/
structure CSaccadeTrial where
  m_stimCode : STIM_CODE
  m_stimEye : STIM_EYE
  m_ctrXDeg : ℚ
  m_ctrYDeg : ℚ
  m_perXDeg : ℚ
  m_perYDeg : ℚ
  m_perADeg : ℚ
  m_perRDeg : ℚ
  deriving DecidableEq, Repr

/-- A grid point `etu::SPoint`: Cartesian offset with its polar form. -/
structure SPoint where
  xDeg : ℚ
  yDeg : ℚ
  aDeg : ℚ
  rDeg : ℚ
  deriving DecidableEq, Repr

/-- The eye-position calculator `CEyePositions`: the stored deviation, the cached
point, and the four virtual accessors. The accessors are `const` methods writing
their two out-parameters; each is a function of the object state
`(m_devDeg, m_xDeg, m_yDeg)` and returns the pair written. Their bodies are not
part of the sources, so they are fields of the object. -/
structure CEyePositions where
  m_devDeg : ℚ
  m_xDeg : ℚ
  m_yDeg : ℚ
  leftEyeFix : ℚ → ℚ → ℚ → ℚ × ℚ
  rightEyeFix : ℚ → ℚ → ℚ → ℚ × ℚ
  leftEyeDev : ℚ → ℚ → ℚ → ℚ × ℚ
  rightEyeDev : ℚ → ℚ → ℚ → ℚ × ℚ

namespace CEyePositions

/-- Cache the new point. -/
def NewPoint (e : CEyePositions) (xDeg yDeg : ℚ) : CEyePositions :=
  { e with m_xDeg := xDeg, m_yDeg := yDeg }

/-- Read the stored deviation in degrees. -/
def GetDeviation (e : CEyePositions) : ℚ := e.m_devDeg

/-- Virtual call `GetLeftEyeFix(x, y)` on the current object state. -/
def GetLeftEyeFix (e : CEyePositions) : ℚ × ℚ := e.leftEyeFix e.m_devDeg e.m_xDeg e.m_yDeg

/-- Virtual call `GetRightEyeFix(x, y)` on the current object state. -/
def GetRightEyeFix (e : CEyePositions) : ℚ × ℚ := e.rightEyeFix e.m_devDeg e.m_xDeg e.m_yDeg

/-- Virtual call `GetLeftEyeDev(x, y)` on the current object state. -/
def GetLeftEyeDev (e : CEyePositions) : ℚ × ℚ := e.leftEyeDev e.m_devDeg e.m_xDeg e.m_yDeg

/-- Virtual call `GetRightEyeDev(x, y)` on the current object state. -/
def GetRightEyeDev (e : CEyePositions) : ℚ × ℚ := e.rightEyeDev e.m_devDeg e.m_xDeg e.m_yDeg

end CEyePositions

/-- The settings read by the generator: `NUM_DIFFICULTY_LEVELS` (a constant of the
missing `TrialSaccades.h`, taken as a value), `getDifficultyLevel()`,
`getUseApprox()` and `getStimRightEye()`. -/
structure CTrialSaccades where
  NUM_DIFFICULTY_LEVELS : Int
  difficultyLevel : Int
  useApprox : Bool
  stimRightEye : Bool
  deriving DecidableEq, Repr

/-! ## Trial construction -/

/-- The centre-cross coordinates chosen by the first `if` chain of `newTrial`. -/
def crossDeg (stimCode : STIM_CODE) (eyePosition : CEyePositions) (randomRight : Bool) : ℚ × ℚ :=
  if isCenterRed stimCode then eyePosition.GetRightEyeFix
  else if isCenterBlue stimCode then eyePosition.GetLeftEyeFix
  else if randomRight then eyePosition.GetRightEyeFix
  else eyePosition.GetLeftEyeFix

/-- The saccade-eye coordinates chosen by the `switch (stimEye)` of `newTrial`
in approximation mode; `cross` is `(xCrossDeg, yCrossDeg)`. -/
def saccEyeDeg (stimEye : STIM_EYE) (stimCode : STIM_CODE) (eyePosition : CEyePositions)
    (randomRight : Bool) (cross : ℚ × ℚ) : ℚ × ℚ :=
  match stimEye with
  | EYE_RIGHT =>
    if isCenterRed stimCode then cross
    else if isCenterBlue stimCode then eyePosition.GetRightEyeDev
    else if randomRight then cross
    else eyePosition.GetRightEyeDev
  | EYE_LEFT =>
    if isCenterRed stimCode then eyePosition.GetLeftEyeDev
    else if isCenterBlue stimCode then cross
    else if !randomRight then eyePosition.GetLeftEyeDev
    else cross

/-- Create a new trial given the stimulated eye, the code, the eye-position
calculator (point cached) and the peripheral vector. `randomRight` is the result
of the single `etu::RandCoinFlip()` call made on entry. -/
def newTrial (settings : CTrialSaccades) (stimEye : STIM_EYE) (stimCode : STIM_CODE)
    (eyePosition : CEyePositions) (perVector : SPoint) (randomRight : Bool) : CSaccadeTrial :=
  let cross := crossDeg stimCode eyePosition randomRight
  let xTargDeg := perVector.xDeg
  let yTargDeg := perVector.yDeg
  let targ : ℚ × ℚ :=
    if settings.useApprox then
      let saccEye := saccEyeDeg stimEye stimCode eyePosition randomRight cross
      (xTargDeg + saccEye.1, yTargDeg + saccEye.2)
    else (xTargDeg, yTargDeg)
  { m_stimCode := stimCode, m_stimEye := stimEye,
    m_ctrXDeg := cross.1, m_ctrYDeg := cross.2,
    m_perXDeg := targ.1, m_perYDeg := targ.2,
    m_perADeg := perVector.aDeg, m_perRDeg := perVector.rDeg }

/-! ## Classification -/

/-- Get string description of trial type by stim code. -/
def stimCodeToString : STIM_CODE → String
  | CODE_C_RED_P_RED => "Red  Red"
  | CODE_C_RED_P_BLUE => "Red  Blue"
  | CODE_C_BLUE_P_RED => "Blue Red"
  | CODE_C_BLUE_P_BLUE => "Blue Blue"
  | CODE_C_RED_P_PURPLE => "Red  Prpl"
  | CODE_C_BLUE_P_PURPLE => "Blue Prpl"
  | CODE_C_PURPLE_P_RED => "Prpl Red"
  | CODE_C_PURPLE_P_BLUE => "Prpl Blue"
  | CODE_C_PURPLE_P_PURPLE => "Prpl Prpl"

/-- What a call of `isOverMidline` does: the text it shows with `AfxMessageBox`
(if any) and the `bool` it returns to its caller. -/
structure MidlineResult where
  alert : Option String
  returned : Bool
  deriving DecidableEq, Repr

/-- The corrected target X of `isOverMidline`: `perXDeg + ctrXDeg`, plus the
deviation for a right eye with blue centre, minus it for a left eye with red centre. -/
def midlineTargetXDeg (pTrial : CSaccadeTrial) (devDeg : ℚ) : ℚ :=
  let targetXDeg := pTrial.m_perXDeg + pTrial.m_ctrXDeg
  if pTrial.m_stimEye = EYE_RIGHT ∧ isCenterBlue pTrial.m_stimCode = true then targetXDeg + devDeg
  else if pTrial.m_stimEye = EYE_LEFT ∧ isCenterRed pTrial.m_stimCode = true then targetXDeg - devDeg
  else targetXDeg

/-- Does the saccade target of the trial fall over the midline? -/
def isOverMidline (pTrial : CSaccadeTrial) (devDeg : ℚ) : MidlineResult :=
  let halfDev := (1 / 2 : ℚ) * devDeg
  let targetXDeg := midlineTargetXDeg pTrial devDeg
  match pTrial.m_stimCode with
  | CODE_C_RED_P_RED => ⟨none, decide (targetXDeg < pTrial.m_ctrXDeg - halfDev)⟩
  | CODE_C_RED_P_BLUE => ⟨none, decide (targetXDeg > pTrial.m_ctrXDeg - halfDev)⟩
  | CODE_C_BLUE_P_RED => ⟨none, decide (targetXDeg < pTrial.m_ctrXDeg + halfDev)⟩
  | CODE_C_BLUE_P_BLUE => ⟨none, decide (targetXDeg > pTrial.m_ctrXDeg + halfDev)⟩
  | code => ⟨some ("Bad stim code to isOverMidline(): " ++ stimCodeToString code), false⟩

/-- Is the trial a crossover trial? -/
def isCrossover (pTrial : CSaccadeTrial) : Bool :=
  if pTrial.m_stimEye = EYE_RIGHT ∧ isPeriphBlue pTrial.m_stimCode = true then true
  else if pTrial.m_stimEye = EYE_LEFT ∧ isPeriphRed pTrial.m_stimCode = true then true
  else false

/-! ## Generation -/

/-- State of a generation run: the output container and the number of
`etu::RandCoinFlip()` calls made so far. -/
structure GenState where
  trials : List CSaccadeTrial
  draws : Nat
  deriving DecidableEq, Repr

/-- The loop `for (ix = 0; ix < numRepeats; ++ix) trials.push_back(copy)`,
run for the `n` iterations it makes. -/
def pushCopies (pSaccadeTrial : CSaccadeTrial) : Nat → List CSaccadeTrial → List CSaccadeTrial
  | 0, trials => trials
  | n + 1, trials => pushCopies pSaccadeTrial n (trials ++ [pSaccadeTrial])

/-- The constant `numRepeatsStandard` of `GenerateTrials`. -/
def numRepeatsStandard (settings : CTrialSaccades) : Int := settings.NUM_DIFFICULTY_LEVELS - 1

/-- The constant `numRepeatsCrossover` of `GenerateTrials`. -/
def numRepeatsCrossover (settings : CTrialSaccades) : Int := settings.difficultyLevel

/-- The value `numRepeats` chosen for a freshly built trial. -/
def numRepeats (settings : CTrialSaccades) (pSaccadeTrial : CSaccadeTrial) : Int :=
  if isCrossover pSaccadeTrial then numRepeatsCrossover settings else numRepeatsStandard settings

/-- Body of the innermost `for (code ...)` loop, over the codes still to visit. A
loop `ix < numRepeats` from 0 makes `numRepeats.toNat` iterations. -/
def codeLoop (settings : CTrialSaccades) (coin : Nat → Bool) (eyePositions : CEyePositions)
    (perVector : SPoint) (eye : STIM_EYE) : List STIM_CODE → GenState → GenState
  | [], s => s
  | code :: rest, s =>
    let pSaccadeTrial := newTrial settings eye code eyePositions perVector (coin s.draws)
    let n := numRepeats settings pSaccadeTrial
    codeLoop settings coin eyePositions perVector eye rest
      { trials := pushCopies pSaccadeTrial n.toNat s.trials, draws := s.draws + 1 }

/-- The `for (eye ...)` loop, over the eyes still to visit; the left eye is
skipped when `getStimRightEye()` holds. -/
def eyeLoop (settings : CTrialSaccades) (coin : Nat → Bool) (eyePositions : CEyePositions)
    (perVector : SPoint) : List STIM_EYE → GenState → GenState
  | [], s => s
  | eye :: rest, s =>
    if !(eye = EYE_LEFT && settings.stimRightEye) then
      eyeLoop settings coin eyePositions perVector rest
        (codeLoop settings coin eyePositions perVector eye plainCodes s)
    else eyeLoop settings coin eyePositions perVector rest s

/-- The `for ( ; perIter != perEnd; ++perIter)` loop, over the peripheral points
still to visit. -/
def perLoop (settings : CTrialSaccades) (coin : Nat → Bool) (eyePositions : CEyePositions) :
    List SPoint → GenState → GenState
  | [], s => s
  | perVector :: rest, s =>
    perLoop settings coin eyePositions rest
      (eyeLoop settings coin eyePositions perVector sweptEyes s)

/-- The outer `for ( ; fixIter != fixEnd; ...)` loop, over the fixation points still
to visit; the peripheral iterator restarts at `begin()` for each of them. Returns
the state and the eye-position object, whose cached point it updates. -/
def fixLoop (settings : CTrialSaccades) (coin : Nat → Bool) (peripheralGrid : List SPoint) :
    List SPoint → CEyePositions → GenState → GenState × CEyePositions
  | [], eyePositions, s => (s, eyePositions)
  | fix :: rest, eyePositions, s =>
    let eyePositions1 := eyePositions.NewPoint fix.xDeg fix.yDeg
    fixLoop settings coin peripheralGrid rest eyePositions1
      (perLoop settings coin eyePositions1 peripheralGrid s)

/-- The container contents after the nested loops of `GenerateTrials`, before the
call of `std::random_shuffle`. -/
def sweep (settings : CTrialSaccades) (coin : Nat → Bool) (fixationGrid peripheralGrid : List SPoint)
    (eyePositions : CEyePositions) (trials : List CSaccadeTrial) : List CSaccadeTrial :=
  (fixLoop settings coin peripheralGrid fixationGrid eyePositions
    { trials := trials, draws := 0 }).1.trials

/-- Exchange the elements at positions `i` and `j` (`std::iter_swap`); positions
outside the list leave it unchanged. -/
def iterSwap {α : Type} (l : List α) (i j : Nat) : List α :=
  match l[i]?, l[j]? with
  | some a, some b => (l.set i b).set j a
  | _, _ => l

/-- The loop of `std::random_shuffle(first, last)` (library code): for each
position `i = 1 .. n-1` in turn, exchange element `i` with the element at
`rand() % (i + 1)`. `k` counts the iterations made so far, so the current
position is `k + 1` and the draw is `rnd k`. -/
def shuffleLoop {α : Type} (rnd : Nat → Nat) : Nat → Nat → List α → List α
  | 0, _, l => l
  | fuel + 1, k, l => shuffleLoop rnd fuel (k + 1) (iterSwap l (k + 1) (rnd k % (k + 2)))

/-- The call `std::random_shuffle(trials.begin(), trials.end())`: `n - 1` iterations. -/
def random_shuffle {α : Type} (rnd : Nat → Nat) (l : List α) : List α :=
  shuffleLoop rnd (l.length - 1) 0 l

/-- Generate trials into the container `trials`: the nested sweep over fixation
points, peripheral points, eyes and codes, then the shuffle of the whole container. -/
def GenerateTrials (settings : CTrialSaccades) (coin : Nat → Bool) (rnd : Nat → Nat)
    (fixationGrid peripheralGrid : List SPoint) (eyePositions : CEyePositions)
    (trials : List CSaccadeTrial) : List CSaccadeTrial :=
  random_shuffle rnd (sweep settings coin fixationGrid peripheralGrid eyePositions trials)

/-! ## Fixtures used by the concrete evaluations -/

/-- An eye-position calculator in which the fixating eye sits on the cached point
and a deviated eye is displaced horizontally by the deviation (right eye to the
right, left eye to the left). -/
def offsetEyePositions (devDeg xDeg yDeg : ℚ) : CEyePositions :=
  { m_devDeg := devDeg, m_xDeg := xDeg, m_yDeg := yDeg,
    leftEyeFix := fun _ x y => (x, y),
    rightEyeFix := fun _ x y => (x, y),
    leftEyeDev := fun d x y => (x - d, y),
    rightEyeDev := fun d x y => (x + d, y) }

/-- An eye-position calculator in which each eye sits half the deviation to its side
of the cached point, fixating or deviated alike. -/
def halfOffsetEyePositions (devDeg xDeg yDeg : ℚ) : CEyePositions :=
  { m_devDeg := devDeg, m_xDeg := xDeg, m_yDeg := yDeg,
    leftEyeFix := fun d x y => (x - d / 2, y),
    rightEyeFix := fun d x y => (x + d / 2, y),
    leftEyeDev := fun d x y => (x - d / 2, y),
    rightEyeDev := fun d x y => (x + d / 2, y) }

/-- A second grid point used by the concrete evaluations: 4 degrees up and 3 left. -/
def samplePoint2 : SPoint := { xDeg := -3, yDeg := 4, aDeg := 323, rDeg := 5 }

/-! ## Quantities used in the statements -/

/-- Number of trials one pass over the four plain codes adds for one eye. -/
def perEyeCount (settings : CTrialSaccades) : Nat :=
  2 * (numRepeatsStandard settings).toNat + 2 * (numRepeatsCrossover settings).toNat

/-- Number of eyes the sweep visits. -/
def eyeCount (settings : CTrialSaccades) : Nat := if settings.stimRightEye then 1 else 2

/-- The deviation correction of `isOverMidline` as the specification words it:
`+d` for a right eye with blue centre, `-d` for a left eye with red centre,
`0` otherwise. -/
def specCorrection (t : CSaccadeTrial) (d : ℚ) : ℚ :=
  if t.m_stimEye = EYE_RIGHT ∧ isCenterBlue t.m_stimCode = true then d
  else if t.m_stimEye = EYE_LEFT ∧ isCenterRed t.m_stimCode = true then -d
  else 0

/-- Settings used by the concrete evaluations: four difficulty levels, difficulty
level 2, approximation mode, both eyes. -/
def sampleSettings : CTrialSaccades :=
  { NUM_DIFFICULTY_LEVELS := 4, difficultyLevel := 2, useApprox := true, stimRightEye := false }

/-- A peripheral vector used by the concrete evaluations: 5 degrees to the right. -/
def samplePoint : SPoint := { xDeg := 5, yDeg := 0, aDeg := 90, rDeg := 5 }

/-- The eyes the sweep visits, in order: Right, then Left unless only the right eye
is to be stimulated. -/
def eyesSwept (settings : CTrialSaccades) : List STIM_EYE :=
  if settings.stimRightEye then [EYE_RIGHT] else [EYE_RIGHT, EYE_LEFT]

/-- The copies emitted for one (peripheral point, eye, code) combination at the
cached fixation point, as the specification words it: `count t` copies of the one
trial `t` that `newTrial` builds for the combination. -/
def comboBlock (settings : CTrialSaccades) (count : CSaccadeTrial → Nat) (e : CEyePositions)
    (p : SPoint) (b : Bool) (eye : STIM_EYE) (code : STIM_CODE) : List CSaccadeTrial :=
  List.replicate (count (newTrial settings eye code e p b)) (newTrial settings eye code e p b)

/-- The swept list as the specification words it: the concatenation, over fixation
points (outer), peripheral points (all of them for each fixation point), the swept
eyes and the four plain codes in order, of the block of each combination. `b` is the
coin-flip value handed to every `newTrial` call. -/
def sweepBlocks (settings : CTrialSaccades) (count : CSaccadeTrial → Nat)
    (fixationGrid peripheralGrid : List SPoint) (e : CEyePositions) (b : Bool) :
    List CSaccadeTrial :=
  fixationGrid.flatMap fun f =>
    peripheralGrid.flatMap fun p =>
      (eyesSwept settings).flatMap fun eye =>
        plainCodes.flatMap fun code =>
          comboBlock settings count (e.NewPoint f.xDeg f.yDeg) p b eye code

/-- The repeat count of a trial as a number of loop iterations. -/
def repeatCount (settings : CTrialSaccades) (t : CSaccadeTrial) : Nat :=
  (numRepeats settings t).toNat

/-- The crossover classification as a function of the stimulated eye and the code
alone. -/
def isCrossoverFor (eye : STIM_EYE) (code : STIM_CODE) : Bool :=
  (eye = EYE_RIGHT && isPeriphBlue code) || (eye = EYE_LEFT && isPeriphRed code)

/-- The number of trials with a given eye and code that one (fixation, peripheral)
pair contributes, from the flag and the two counts alone. -/
def copiesFor (settings : CTrialSaccades) (eye : STIM_EYE) (code : STIM_CODE) : Nat :=
  if eye ∈ eyesSwept settings ∧ code ∈ plainCodes then
    (if isCrossoverFor eye code = true then settings.difficultyLevel
      else settings.NUM_DIFFICULTY_LEVELS - 1).toNat
  else 0

/-- Does the trial have this stimulated eye and this code? -/
def hasEyeCode (eye : STIM_EYE) (code : STIM_CODE) (t : CSaccadeTrial) : Bool :=
  decide (t.m_stimEye = eye ∧ t.m_stimCode = code)

/-! ## Message codes for angle and radius -/

/-- Round to the nearest integer, ties to the even one. -/
def roundHalfEven (x : ℚ) : Int :=
  if x - ⌊x⌋ < 1 / 2 then ⌊x⌋
  else if 1 / 2 < x - ⌊x⌋ then ⌊x⌋ + 1
  else if ⌊x⌋ % 2 = 0 then ⌊x⌋ else ⌊x⌋ + 1

/-- The binary exponent of a non-zero value: the `e` with `2^e ≤ |q| < 2^(e+1)`. -/
def binaryExponent (q : ℚ) : Int := Int.log 2 |q|

/-- Rounding of a real value to IEEE-754 binary64, round to nearest, ties to even:
53 significant bits, the exponent not below -1022 (subnormal range). Overflow to
infinity is left out: such a value is far outside the `int` range, where the
conversion `(int)x` is undefined anyway. -/
def roundDouble (q : ℚ) : ℚ :=
  if q = 0 then 0
  else (roundHalfEven (q / 2 ^ (max (binaryExponent q) (-1022) - 52)) : ℚ)
    * 2 ^ (max (binaryExponent q) (-1022) - 52)

/-- The `double` subtraction `a - b`: the exact difference, rounded. -/
def doubleSub (a b : ℚ) : ℚ := roundDouble (a - b)

/-- The `double` nearest to 5.1. -/
def double5p1 : ℚ := 5742089524897382 / 1125899906842624

/-- The `double` nearest to 0.1. -/
def double0p1 : ℚ := 3602879701896397 / 36028797018963968

/-- Truncation of a `double` toward zero, the value of the conversion `(int)x`. -/
def truncInt (x : ℚ) : Int := Int.tdiv x.num x.den

/-- The conversion `(int)x`: defined when the truncated value fits a 32-bit `int`. -/
def castInt (x : ℚ) : Option Int :=
  if -2147483648 ≤ truncInt x ∧ truncInt x ≤ 2147483647 then some (truncInt x) else none

/-- The expression `x & 0xFF` on a 32-bit two's complement `int`. -/
def andFF (x : Int) : Int := (((x % 4294967296).toNat &&& 0xFF : Nat) : Int)

/-- Convert a radial angle to its hex code; `%` and `/` truncate toward zero. -/
def angleToCode (angleDeg offsetDeg : ℚ) : Option Int :=
  (castInt (doubleSub angleDeg offsetDeg)).map fun angle =>
    let offset := Int.tdiv (Int.tmod angle 360) 5
    andFF (0x21 + offset)

/-- Convert a radius to its hex code; `/` truncates toward zero. -/
def radiusToCode (radiusDeg offsetDeg : ℚ) : Option Int :=
  (castInt (doubleSub radiusDeg offsetDeg)).map fun r =>
    let offset := Int.tdiv r 5
    andFF (0x21 + offset)

/-! ## UDP listener dialog: the local port field (UdpListenerDlg.cpp) -/

/-- White space as `CString::Trim` removes it and `_tcstol` skips it: space, tab,
line feed, vertical tab, form feed, carriage return. -/
def isSpaceChar (c : Char) : Bool :=
  c.toNat = 32 || (9 ≤ c.toNat && c.toNat ≤ 13)

/-- `CString::Trim()`: remove leading and trailing white space. -/
def Trim (s : List Char) : List Char :=
  ((s.dropWhile isSpaceChar).reverse.dropWhile isSpaceChar).reverse

/-- Value of a decimal digit character. -/
def digitValue (c : Char) : Option Nat :=
  if 48 ≤ c.toNat ∧ c.toNat ≤ 57 then some (c.toNat - 48) else none

/-- The digit loop of `_tcstol` in base 10: the value accumulated so far and the
number of digits consumed so far, through the leading run of digits. -/
def scanDigits : List Char → Nat → Nat → Nat × Nat
  | [], acc, n => (acc, n)
  | c :: rest, acc, n =>
    match digitValue c with
    | some d => scanDigits rest (10 * acc + d) (n + 1)
    | none => (acc, n)

/-- Clamp to the range of a 32-bit `long`, as `_tcstol` does on overflow. -/
def clampLong (v : Int) : Int :=
  if v < -2147483648 then -2147483648 else if 2147483647 < v then 2147483647 else v

/-- The library function `_tcstol(s, &endPtr, 10)`: skip white space, read an optional
sign and the leading run of digits; returns the value and the offset of the first
character not consumed, which is what it stores through its second argument. With
no digits the value is 0 and the offset is 0. -/
def tcstol (s : List Char) : Int × Nat :=
  let ws := (s.takeWhile isSpaceChar).length
  let body := s.dropWhile isSpaceChar
  let signed : Bool × List Char × Nat :=
    match body with
    | c :: rest =>
      if c.toNat = 45 then (true, rest, 1) else if c.toNat = 43 then (false, rest, 1)
      else (false, body, 0)
    | [] => (false, body, 0)
  let scanned := scanDigits signed.2.1 0 0
  if scanned.2 = 0 then (0, 0)
  else (clampLong (if signed.1 then -(scanned.1 : Int) else (scanned.1 : Int)),
    ws + signed.2.2 + scanned.2)

/-- What a call of `getLocalUdpPort` does: the text it shows with `AfxMessageBox`
(if any) and the `int` it returns. -/
structure PortResult where
  alert : Option String
  returned : Int
  deriving DecidableEq, Repr

/-- Get the contents of the UDP port field as an int. `windowText` is the text of the
edit control; `endPtr` is `none` for `NULL` and otherwise the offset `_tcstol`
stored through `&endPtr`. -/
def getLocalUdpPort (windowText : String) : PortResult :=
  let portString := Trim windowText.data
  let parsed := tcstol portString
  let endPtr : Option Nat := some parsed.2
  let output := parsed.1
  if endPtr ≠ none then
    { alert := some "UDP port must be a positive integer.", returned := 12345 }
  else { alert := none, returned := output }

/-- Is the trial a crossover trial of this stimulated eye? -/
def isCrossoverOfEye (eye : STIM_EYE) (t : CSaccadeTrial) : Bool :=
  decide (t.m_stimEye = eye) && isCrossover t

/-- The number of crossover trials of a given eye that one (fixation, peripheral)
pair contributes: two codes, each repeated the crossover count, if the eye is swept. -/
def crossoverCopies (settings : CTrialSaccades) (eye : STIM_EYE) : Nat :=
  if eye ∈ eyesSwept settings then 2 * (numRepeatsCrossover settings).toNat else 0

/-- The threshold `isOverMidline` compares the corrected X with: `ctrXDeg - d/2` for a
red centre and `ctrXDeg + d/2` for a blue centre. -/
def midlineThreshold (t : CSaccadeTrial) (d : ℚ) : ℚ :=
  if isCenterRed t.m_stimCode = true then t.m_ctrXDeg - d / 2 else t.m_ctrXDeg + d / 2

/-! ## Auxiliary facts about the loops -/

theorem pushCopies_eq (t : CSaccadeTrial) (n : Nat) (trials : List CSaccadeTrial) :
    pushCopies t n trials = trials ++ List.replicate n t := by
  induction n generalizing trials with
  | zero => simp [pushCopies]
  | succ n ih => simp [pushCopies, ih, List.replicate_succ]

theorem codeLoop_plain_length (settings : CTrialSaccades) (coin : Nat → Bool)
    (e : CEyePositions) (p : SPoint) (eye : STIM_EYE) (s : GenState) :
    (codeLoop settings coin e p eye plainCodes s).trials.length
      = s.trials.length + perEyeCount settings := by
  cases eye <;>
    simp [plainCodes, codeLoop, numRepeats, isCrossover, newTrial, isPeriphBlue, isPeriphRed,
      pushCopies_eq, perEyeCount] <;> omega

theorem eyeLoop_length (settings : CTrialSaccades) (coin : Nat → Bool)
    (e : CEyePositions) (p : SPoint) (s : GenState) :
    (eyeLoop settings coin e p sweptEyes s).trials.length
      = s.trials.length + eyeCount settings * perEyeCount settings := by
  cases h : settings.stimRightEye <;>
    simp [sweptEyes, eyeLoop, h, codeLoop_plain_length, eyeCount]
  omega

theorem perLoop_length (settings : CTrialSaccades) (coin : Nat → Bool)
    (e : CEyePositions) (grid : List SPoint) (s : GenState) :
    (perLoop settings coin e grid s).trials.length
      = s.trials.length + grid.length * (eyeCount settings * perEyeCount settings) := by
  induction grid generalizing s with
  | nil => simp [perLoop]
  | cons p rest ih =>
    simp only [perLoop, ih, eyeLoop_length, List.length_cons]
    ring

theorem fixLoop_length (settings : CTrialSaccades) (coin : Nat → Bool)
    (per grid : List SPoint) (e : CEyePositions) (s : GenState) :
    (fixLoop settings coin per grid e s).1.trials.length
      = s.trials.length
        + grid.length * (per.length * (eyeCount settings * perEyeCount settings)) := by
  induction grid generalizing e s with
  | nil => simp [fixLoop]
  | cons f rest ih =>
    simp only [fixLoop, ih, perLoop_length, List.length_cons]
    ring

theorem sweep_length (settings : CTrialSaccades) (coin : Nat → Bool)
    (fg pg : List SPoint) (e : CEyePositions) (trials : List CSaccadeTrial) :
    (sweep settings coin fg pg e trials).length
      = trials.length + fg.length * (pg.length * (eyeCount settings * perEyeCount settings)) := by
  simp [sweep, fixLoop_length]

/-! ## Auxiliary facts about the shuffle -/

theorem cons_set_perm {α : Type} (x b : α) :
    ∀ (l : List α) (j : Nat), l[j]? = some b → (b :: l.set j x).Perm (x :: l)
  | [], j, h => by simp at h
  | y :: ys, 0, h => by
    have hy : y = b := by simpa using h
    subst hy
    simpa using List.Perm.swap x y ys
  | y :: ys, j + 1, h => by
    have hj : ys[j]? = some b := by simpa using h
    have ih := cons_set_perm x b ys j hj
    simp only [List.set_cons_succ]
    exact (List.Perm.swap y b _).trans (((ih.cons y)).trans (List.Perm.swap x y ys))

theorem set_set_perm_of_getElem? {α : Type} (a b : α) :
    ∀ (l : List α) (i j : Nat), l[i]? = some a → l[j]? = some b →
      ((l.set i b).set j a).Perm l
  | [], i, _, hi, _ => by simp at hi
  | x :: xs, 0, 0, hi, hj => by
    have hx : x = a := by simpa using hi
    simp [hx]
  | x :: xs, 0, j + 1, hi, hj => by
    have hx : x = a := by simpa using hi
    have hj1 : xs[j]? = some b := by simpa using hj
    subst hx
    simpa using cons_set_perm x b xs j hj1
  | x :: xs, i + 1, 0, hi, hj => by
    have hx : x = b := by simpa using hj
    have hi1 : xs[i]? = some a := by simpa using hi
    subst hx
    simpa using cons_set_perm x a xs i hi1
  | x :: xs, i + 1, j + 1, hi, hj => by
    have hi1 : xs[i]? = some a := by simpa using hi
    have hj1 : xs[j]? = some b := by simpa using hj
    simpa using (set_set_perm_of_getElem? a b xs i j hi1 hj1).cons x

theorem iterSwap_perm {α : Type} (l : List α) (i j : Nat) : (iterSwap l i j).Perm l := by
  unfold iterSwap
  cases hi : l[i]? with
  | none => exact List.Perm.refl l
  | some a =>
    cases hj : l[j]? with
    | none => exact List.Perm.refl l
    | some b => exact set_set_perm_of_getElem? a b l i j hi hj

theorem shuffleLoop_perm {α : Type} (rnd : Nat → Nat) (fuel k : Nat) (l : List α) :
    (shuffleLoop rnd fuel k l).Perm l := by
  induction fuel generalizing k l with
  | zero => exact List.Perm.refl l
  | succ n ih => exact (ih (k + 1) _).trans (iterSwap_perm l _ _)

theorem random_shuffle_perm {α : Type} (rnd : Nat → Nat) (l : List α) :
    (random_shuffle rnd l).Perm l :=
  shuffleLoop_perm rnd _ 0 l

/-! ## Trial count -/

/-- C1: started on an empty container, with non-negative repeat counts,
`GenerateTrials` emits `F * P * (1 if right-only else 2) * S` trials, where
`S = 2 * std + 2 * cross` is, for either eye, the sum over the four plain codes of
the repeat count chosen for the trial of that eye and code. -/
theorem GenerateTrials_count (settings : CTrialSaccades) (coin : Nat → Bool) (rnd : Nat → Nat)
    (fixationGrid peripheralGrid : List SPoint) (eyePositions : CEyePositions)
    (hstd : 0 ≤ numRepeatsStandard settings) (hcross : 0 ≤ numRepeatsCrossover settings) :
    ((GenerateTrials settings coin rnd fixationGrid peripheralGrid eyePositions []).length : Int)
        = (fixationGrid.length : Int) * (peripheralGrid.length : Int)
          * (if settings.stimRightEye then 1 else 2)
          * (2 * numRepeatsStandard settings + 2 * numRepeatsCrossover settings)
      ∧ ∀ (eye : STIM_EYE) (e : CEyePositions) (p : SPoint) (b : Bool),
          (plainCodes.map (fun code => numRepeats settings (newTrial settings eye code e p b))).sum
            = 2 * numRepeatsStandard settings + 2 * numRepeatsCrossover settings := by
  constructor
  · have hlen := (random_shuffle_perm rnd
      (sweep settings coin fixationGrid peripheralGrid eyePositions [])).length_eq
    have hsw := sweep_length settings coin fixationGrid peripheralGrid eyePositions []
    have hs : ((numRepeatsStandard settings).toNat : Int) = numRepeatsStandard settings :=
      Int.toNat_of_nonneg hstd
    have hc : ((numRepeatsCrossover settings).toNat : Int) = numRepeatsCrossover settings :=
      Int.toNat_of_nonneg hcross
    unfold GenerateTrials
    rw [hlen, hsw]
    cases h : settings.stimRightEye <;>
      simp [eyeCount, perEyeCount, h, hs, hc] <;> ring
  · intro eye e p b
    cases eye <;>
      simp [plainCodes, numRepeats, isCrossover, newTrial, isPeriphBlue, isPeriphRed] <;> ring

/-- C1, evaluated: two fixation points, one peripheral point, both eyes, standard
count 3 and crossover count 2. -/
theorem GenerateTrials_count_witness :
    ((GenerateTrials sampleSettings (fun _ => true) (fun k => k)
        [samplePoint, samplePoint] [samplePoint] (offsetEyePositions 10 0 0) []).length : Int)
      = 40 := by
  have h := (GenerateTrials_count sampleSettings (fun _ => true) (fun k => k)
    [samplePoint, samplePoint] [samplePoint] (offsetEyePositions 10 0 0)
    (by decide) (by decide)).1
  rw [h]
  decide

/-! ## Crossover classification -/

/-- C2: `isCrossover` holds exactly for a right eye with blue peripheral colour or a
left eye with red peripheral colour; two trials with the same stimulated eye and the
same peripheral colour component get the same answer whatever their other fields;
it is false for every purple peripheral code; and a right eye with
CenterRed_PeriphBlue is a crossover. -/
theorem isCrossover_iff (t t1 : CSaccadeTrial) :
    (isCrossover t = true ↔
        (t.m_stimEye = EYE_RIGHT ∧ isPeriphBlue t.m_stimCode = true)
          ∨ (t.m_stimEye = EYE_LEFT ∧ isPeriphRed t.m_stimCode = true))
      ∧ (t1.m_stimEye = t.m_stimEye → isPeriphRed t1.m_stimCode = isPeriphRed t.m_stimCode →
          isPeriphBlue t1.m_stimCode = isPeriphBlue t.m_stimCode →
          isCrossover t1 = isCrossover t)
      ∧ (isPeriphPurple t.m_stimCode = true → isCrossover t = false)
      ∧ isCrossover { t with m_stimEye := EYE_RIGHT, m_stimCode := CODE_C_RED_P_BLUE } = true := by
  refine ⟨?_, ?_, ?_, ?_⟩
  · unfold isCrossover
    by_cases h1 : t.m_stimEye = EYE_RIGHT ∧ isPeriphBlue t.m_stimCode = true
    · simp [h1]
    · by_cases h2 : t.m_stimEye = EYE_LEFT ∧ isPeriphRed t.m_stimCode = true
      · simp [h2]
      · simp [h1, h2]
  · intro he hr hb
    simp [isCrossover, he, hr, hb]
  · intro hp
    have hr : isPeriphRed t.m_stimCode = false := by
      cases h : isPeriphRed t.m_stimCode <;> simp_all [isPeriphPurple]
    have hb : isPeriphBlue t.m_stimCode = false := by
      cases h : isPeriphBlue t.m_stimCode <;> simp_all [isPeriphPurple]
    simp [isCrossover, hr, hb]
  · simp [isCrossover, isPeriphBlue]

/-- C2, evaluated: two right-eye trials with blue peripheral colour and different
centres and coordinates are classified alike, and a purple peripheral code is not a
crossover. -/
theorem isCrossover_iff_witness :
    isCrossover ⟨CODE_C_BLUE_P_BLUE, EYE_LEFT, 1, 2, 3, 4, 5, 6⟩
        = isCrossover ⟨CODE_C_RED_P_BLUE, EYE_LEFT, 0, 0, -7, 0, 0, 7⟩
      ∧ isCrossover ⟨CODE_C_RED_P_PURPLE, EYE_LEFT, 0, 0, -7, 0, 0, 7⟩ = false :=
  ⟨(isCrossover_iff ⟨CODE_C_RED_P_BLUE, EYE_LEFT, 0, 0, -7, 0, 0, 7⟩
      ⟨CODE_C_BLUE_P_BLUE, EYE_LEFT, 1, 2, 3, 4, 5, 6⟩).2.1 rfl rfl rfl,
    (isCrossover_iff ⟨CODE_C_RED_P_PURPLE, EYE_LEFT, 0, 0, -7, 0, 0, 7⟩
      ⟨CODE_C_RED_P_PURPLE, EYE_LEFT, 0, 0, -7, 0, 0, 7⟩).2.2.1 rfl⟩

/-- C3, refuted as stated: the right-eye trial with code CenterBlue_PeriphBlue at
the origin is classified as a crossover. -/
theorem isCrossover_right_blue_blue_counterexample :
    ¬ (∀ t : CSaccadeTrial, t.m_stimEye = EYE_RIGHT → t.m_stimCode = CODE_C_BLUE_P_BLUE →
        isCrossover t = false) := by
  intro h
  have h0 := h ⟨CODE_C_BLUE_P_BLUE, EYE_RIGHT, 0, 0, 0, 0, 0, 0⟩ rfl rfl
  simp [isCrossover, isPeriphBlue] at h0

/-- C3, amended: a trial with stimulated eye Right and code CenterBlue_PeriphBlue is
a crossover, whatever its coordinates (the peripheral colour is Blue); with the same
eye and centre and a Red peripheral colour, CenterBlue_PeriphRed, it is not. -/
theorem isCrossover_right_blue_blue (t : CSaccadeTrial) (heye : t.m_stimEye = EYE_RIGHT) :
    (t.m_stimCode = CODE_C_BLUE_P_BLUE → isCrossover t = true)
      ∧ (t.m_stimCode = CODE_C_BLUE_P_RED → isCrossover t = false) := by
  constructor <;> intro hcode <;> simp [isCrossover, heye, hcode, isPeriphBlue, isPeriphRed]

/-- C3 amended, evaluated on two right-eye trials away from the origin. -/
theorem isCrossover_right_blue_blue_witness :
    isCrossover ⟨CODE_C_BLUE_P_BLUE, EYE_RIGHT, 2, -1, 9, 4, 30, 10⟩ = true
      ∧ isCrossover ⟨CODE_C_BLUE_P_RED, EYE_RIGHT, 2, -1, 9, 4, 30, 10⟩ = false :=
  ⟨(isCrossover_right_blue_blue ⟨CODE_C_BLUE_P_BLUE, EYE_RIGHT, 2, -1, 9, 4, 30, 10⟩ rfl).1 rfl,
    (isCrossover_right_blue_blue ⟨CODE_C_BLUE_P_RED, EYE_RIGHT, 2, -1, 9, 4, 30, 10⟩ rfl).2 rfl⟩

/-! ## Midline classification -/

theorem midlineTargetXDeg_eq (t : CSaccadeTrial) (d : ℚ) :
    midlineTargetXDeg t d = t.m_perXDeg + t.m_ctrXDeg + specCorrection t d := by
  unfold midlineTargetXDeg specCorrection
  split_ifs <;> ring

/-- C4: for a trial with one of the four plain codes and any deviation `d`,
`isOverMidline` shows no message and returns the table entry of the code applied to
`X = perXDeg + ctrXDeg + c`, with `c` the deviation correction: RedRed gives
`X < ctrXDeg - d/2`, RedBlue `X > ctrXDeg - d/2`, BlueRed `X < ctrXDeg + d/2`,
BlueBlue `X > ctrXDeg + d/2`. -/
theorem isOverMidline_table (t : CSaccadeTrial) (d : ℚ) :
    (t.m_stimCode = CODE_C_RED_P_RED →
        isOverMidline t d = ⟨none, decide
          (t.m_perXDeg + t.m_ctrXDeg + specCorrection t d < t.m_ctrXDeg - d / 2)⟩)
      ∧ (t.m_stimCode = CODE_C_RED_P_BLUE →
        isOverMidline t d = ⟨none, decide
          (t.m_perXDeg + t.m_ctrXDeg + specCorrection t d > t.m_ctrXDeg - d / 2)⟩)
      ∧ (t.m_stimCode = CODE_C_BLUE_P_RED →
        isOverMidline t d = ⟨none, decide
          (t.m_perXDeg + t.m_ctrXDeg + specCorrection t d < t.m_ctrXDeg + d / 2)⟩)
      ∧ (t.m_stimCode = CODE_C_BLUE_P_BLUE →
        isOverMidline t d = ⟨none, decide
          (t.m_perXDeg + t.m_ctrXDeg + specCorrection t d > t.m_ctrXDeg + d / 2)⟩) := by
  have hhalf : (1 / 2 : ℚ) * d = d / 2 := by ring
  refine ⟨?_, ?_, ?_, ?_⟩ <;> intro hcode <;>
    simp only [isOverMidline, hcode, midlineTargetXDeg_eq, hhalf]

/-- C4, evaluated: a left-eye RedRed trial (correction `-10`) and a right-eye
BlueBlue trial (correction `+10`) at deviation 10. -/
theorem isOverMidline_table_witness :
    isOverMidline ⟨CODE_C_RED_P_RED, EYE_LEFT, 1, 0, 2, 0, 90, 2⟩ 10
        = ⟨none, decide ((2 : ℚ) + 1
            + specCorrection ⟨CODE_C_RED_P_RED, EYE_LEFT, 1, 0, 2, 0, 90, 2⟩ 10 < 1 - 10 / 2)⟩
      ∧ isOverMidline ⟨CODE_C_BLUE_P_BLUE, EYE_RIGHT, 1, 0, 2, 0, 90, 2⟩ 10
        = ⟨none, decide ((2 : ℚ) + 1
            + specCorrection ⟨CODE_C_BLUE_P_BLUE, EYE_RIGHT, 1, 0, 2, 0, 90, 2⟩ 10 > 1 + 10 / 2)⟩ :=
  ⟨(isOverMidline_table ⟨CODE_C_RED_P_RED, EYE_LEFT, 1, 0, 2, 0, 90, 2⟩ 10).1 rfl,
    (isOverMidline_table ⟨CODE_C_BLUE_P_BLUE, EYE_RIGHT, 1, 0, 2, 0, 90, 2⟩ 10).2.2.2 rfl⟩

/-- C5, refuted as stated: the left-eye RedRed trial with `ctrXDeg = 0` and
`perXDeg = -3` is over the midline at deviation 10, because the left-eye correction
moves the target to `-13 < -5`. -/
theorem isOverMidline_example_counterexample :
    ¬ (∀ t : CSaccadeTrial, t.m_ctrXDeg = 0 → t.m_stimCode = CODE_C_RED_P_RED →
        (t.m_perXDeg + t.m_ctrXDeg = -6 → (isOverMidline t 10).returned = true)
          ∧ (t.m_perXDeg + t.m_ctrXDeg = -3 → (isOverMidline t 10).returned = false)) := by
  intro h
  have h0 := (h ⟨CODE_C_RED_P_RED, EYE_LEFT, 0, 0, -3, 0, 0, 0⟩ rfl rfl).2 (by norm_num)
  have h1 : (isOverMidline ⟨CODE_C_RED_P_RED, EYE_LEFT, 0, 0, -3, 0, 0, 0⟩ 10).returned = true := by
    simp [isOverMidline, midlineTargetXDeg, isCenterRed, isCenterBlue]
    norm_num
  rw [h1] at h0
  exact Bool.noConfusion h0

/-- C5, amended: at deviation 10, for a RedRed trial with `ctrXDeg = 0`: if
`perXDeg + ctrXDeg = -6` it is over the midline for either eye; if
`perXDeg + ctrXDeg = -3` it is not over the midline when the stimulated eye is
Right. -/
theorem isOverMidline_example (t : CSaccadeTrial) (hctr : t.m_ctrXDeg = 0)
    (hcode : t.m_stimCode = CODE_C_RED_P_RED) :
    (t.m_perXDeg + t.m_ctrXDeg = -6 → (isOverMidline t 10).returned = true)
      ∧ (t.m_perXDeg + t.m_ctrXDeg = -3 → t.m_stimEye = EYE_RIGHT →
          (isOverMidline t 10).returned = false) := by
  constructor
  · intro hx
    have hp : t.m_perXDeg = -6 := by rw [hctr] at hx; linarith
    cases heye : t.m_stimEye <;>
      simp [isOverMidline, midlineTargetXDeg, hcode, heye, isCenterRed, isCenterBlue, hp, hctr] <;>
      norm_num
  · intro hx heye
    have hp : t.m_perXDeg = -3 := by rw [hctr] at hx; linarith
    simp [isOverMidline, midlineTargetXDeg, hcode, heye, isCenterRed, isCenterBlue, hp, hctr]
    norm_num

/-- C5 amended, evaluated on a left-eye trial at `-6` and a right-eye trial at `-3`. -/
theorem isOverMidline_example_witness :
    (isOverMidline ⟨CODE_C_RED_P_RED, EYE_LEFT, 0, 3, -6, 1, 270, 6⟩ 10).returned = true
      ∧ (isOverMidline ⟨CODE_C_RED_P_RED, EYE_RIGHT, 0, 3, -3, 1, 270, 3⟩ 10).returned = false :=
  ⟨(isOverMidline_example ⟨CODE_C_RED_P_RED, EYE_LEFT, 0, 3, -6, 1, 270, 6⟩ rfl rfl).1
      (by norm_num),
    (isOverMidline_example ⟨CODE_C_RED_P_RED, EYE_RIGHT, 0, 3, -3, 1, 270, 3⟩ rfl rfl).2
      (by norm_num) rfl⟩

/-- C6, refuted as stated: for the purple-centre trial below `isOverMidline` shows
its message and then returns `false` to the caller. -/
theorem isOverMidline_bad_code_counterexample :
    isOverMidline ⟨CODE_C_PURPLE_P_RED, EYE_RIGHT, 0, 0, -6, 0, 270, 6⟩ 10
      = { alert := some "Bad stim code to isOverMidline(): Prpl Red", returned := false } := by
  rfl

/-- C6, amended: for every trial whose code is not one of the four plain codes and
every deviation, `isOverMidline` shows the message naming the code and returns
`false`. -/
theorem isOverMidline_bad_code (t : CSaccadeTrial) (d : ℚ) (hcode : t.m_stimCode ∉ plainCodes) :
    isOverMidline t d
      = { alert := some ("Bad stim code to isOverMidline(): " ++ stimCodeToString t.m_stimCode),
          returned := false } := by
  unfold isOverMidline
  cases h : t.m_stimCode <;> simp_all [plainCodes]

/-- C6 amended, evaluated on a purple-peripheral trial. -/
theorem isOverMidline_bad_code_witness :
    isOverMidline ⟨CODE_C_BLUE_P_PURPLE, EYE_LEFT, 1, 1, 4, 0, 90, 4⟩ 7
      = { alert := some ("Bad stim code to isOverMidline(): " ++ "Blue Prpl"), returned := false } :=
  isOverMidline_bad_code ⟨CODE_C_BLUE_P_PURPLE, EYE_LEFT, 1, 1, 4, 0, 90, 4⟩ 7 (by decide)

/-! ## Trial construction -/

/-- C7, evaluated at the failing input: approximation mode, stimulated eye Left,
code CenterPurple_PeriphRed, coin flip Left. The centre cross is the left eye's
fixation point, so the coin chose the stimulated eye, yet the target is the raw
vector plus `GetLeftEyeDev` (x = 5 - 10), not plus the centre cross; the same call
with the centre-Blue code CenterBlue_PeriphRed gives x = 5 + 0. -/
theorem newTrial_purple_left_divergence :
    ((newTrial sampleSettings EYE_LEFT CODE_C_PURPLE_P_RED
          (offsetEyePositions 10 0 0) samplePoint false).m_ctrXDeg,
        (newTrial sampleSettings EYE_LEFT CODE_C_PURPLE_P_RED
          (offsetEyePositions 10 0 0) samplePoint false).m_ctrYDeg)
        = (offsetEyePositions 10 0 0).GetLeftEyeFix
      ∧ (newTrial sampleSettings EYE_LEFT CODE_C_PURPLE_P_RED
          (offsetEyePositions 10 0 0) samplePoint false).m_perXDeg
        = samplePoint.xDeg + (offsetEyePositions 10 0 0).GetLeftEyeDev.1
      ∧ (newTrial sampleSettings EYE_LEFT CODE_C_PURPLE_P_RED
          (offsetEyePositions 10 0 0) samplePoint false).m_perXDeg = -5
      ∧ (newTrial sampleSettings EYE_LEFT CODE_C_BLUE_P_RED
          (offsetEyePositions 10 0 0) samplePoint false).m_perXDeg = 5 := by
  refine ⟨?_, ?_, ?_, ?_⟩ <;>
    simp [newTrial, crossDeg, saccEyeDeg, isCenterRed, isCenterBlue, sampleSettings, samplePoint,
      offsetEyePositions, CEyePositions.GetLeftEyeFix, CEyePositions.GetLeftEyeDev]
  norm_num

/-- C8: in approximation mode, with a Red or Blue centre, the peripheral target is
the raw vector plus the centre-cross coordinates when the centre colour is the
stimulated eye's own (Right with Red, Left with Blue), plus `GetRightEyeDev` for eye
Right with a Blue centre, and plus `GetLeftEyeDev` for eye Left with a Red centre. -/
theorem newTrial_approx_offset (settings : CTrialSaccades) (code : STIM_CODE)
    (e : CEyePositions) (p : SPoint) (b : Bool) (happrox : settings.useApprox = true) :
    (isCenterRed code = true →
        ((newTrial settings EYE_RIGHT code e p b).m_perXDeg,
            (newTrial settings EYE_RIGHT code e p b).m_perYDeg)
          = (p.xDeg + (newTrial settings EYE_RIGHT code e p b).m_ctrXDeg,
              p.yDeg + (newTrial settings EYE_RIGHT code e p b).m_ctrYDeg))
      ∧ (isCenterBlue code = true →
        ((newTrial settings EYE_LEFT code e p b).m_perXDeg,
            (newTrial settings EYE_LEFT code e p b).m_perYDeg)
          = (p.xDeg + (newTrial settings EYE_LEFT code e p b).m_ctrXDeg,
              p.yDeg + (newTrial settings EYE_LEFT code e p b).m_ctrYDeg))
      ∧ (isCenterBlue code = true →
        ((newTrial settings EYE_RIGHT code e p b).m_perXDeg,
            (newTrial settings EYE_RIGHT code e p b).m_perYDeg)
          = (p.xDeg + e.GetRightEyeDev.1, p.yDeg + e.GetRightEyeDev.2))
      ∧ (isCenterRed code = true →
        ((newTrial settings EYE_LEFT code e p b).m_perXDeg,
            (newTrial settings EYE_LEFT code e p b).m_perYDeg)
          = (p.xDeg + e.GetLeftEyeDev.1, p.yDeg + e.GetLeftEyeDev.2)) := by
  refine ⟨?_, ?_, ?_, ?_⟩ <;> intro hc <;> cases code <;>
    simp_all [newTrial, saccEyeDeg, isCenterRed, isCenterBlue]

/-- C8, evaluated: eye Right with CenterBlue_PeriphRed gives the raw vector plus the
right eye's deviated position. -/
theorem newTrial_approx_offset_witness :
    ((newTrial sampleSettings EYE_RIGHT CODE_C_BLUE_P_RED
          (offsetEyePositions 10 0 0) samplePoint true).m_perXDeg,
        (newTrial sampleSettings EYE_RIGHT CODE_C_BLUE_P_RED
          (offsetEyePositions 10 0 0) samplePoint true).m_perYDeg)
      = (samplePoint.xDeg + (offsetEyePositions 10 0 0).GetRightEyeDev.1,
          samplePoint.yDeg + (offsetEyePositions 10 0 0).GetRightEyeDev.2) :=
  (newTrial_approx_offset sampleSettings CODE_C_BLUE_P_RED (offsetEyePositions 10 0 0)
    samplePoint true rfl).2.2.1 rfl

/-- C9: the centre of the trial `newTrial` builds is `GetRightEyeFix` for a Red
centre, `GetLeftEyeFix` for a Blue centre, and for a purple centre `GetRightEyeFix`
if the coin flip picked Right and `GetLeftEyeFix` otherwise, in both modes and for
either stimulated eye. -/
theorem newTrial_centre (settings : CTrialSaccades) (eye : STIM_EYE) (code : STIM_CODE)
    (e : CEyePositions) (p : SPoint) (b : Bool) :
    (isCenterRed code = true →
        ((newTrial settings eye code e p b).m_ctrXDeg, (newTrial settings eye code e p b).m_ctrYDeg)
          = e.GetRightEyeFix)
      ∧ (isCenterBlue code = true →
        ((newTrial settings eye code e p b).m_ctrXDeg, (newTrial settings eye code e p b).m_ctrYDeg)
          = e.GetLeftEyeFix)
      ∧ (isCenterPurple code = true →
        ((newTrial settings eye code e p b).m_ctrXDeg, (newTrial settings eye code e p b).m_ctrYDeg)
          = if b = true then e.GetRightEyeFix else e.GetLeftEyeFix) := by
  refine ⟨?_, ?_, ?_⟩ <;> intro hc <;> cases code <;> cases b <;>
    simp_all [newTrial, crossDeg, isCenterRed, isCenterBlue, isCenterPurple]

/-- C9, evaluated: a purple centre with the coin on Left and fixation point (3, 1)
puts the cross on the left eye's fixation position. -/
theorem newTrial_centre_witness :
    ((newTrial sampleSettings EYE_RIGHT CODE_C_PURPLE_P_BLUE
          (offsetEyePositions 10 3 1) samplePoint false).m_ctrXDeg,
        (newTrial sampleSettings EYE_RIGHT CODE_C_PURPLE_P_BLUE
          (offsetEyePositions 10 3 1) samplePoint false).m_ctrYDeg)
      = if false = true then (offsetEyePositions 10 3 1).GetRightEyeFix
        else (offsetEyePositions 10 3 1).GetLeftEyeFix :=
  (newTrial_centre sampleSettings EYE_RIGHT CODE_C_PURPLE_P_BLUE (offsetEyePositions 10 3 1)
    samplePoint false).2.2 rfl

/-! ## Shuffle -/

/-- C10: whatever the grids, the settings, the coin flips, the shuffle draws and
the initial container, the list `GenerateTrials` returns is a permutation of the
list the sweep built before shuffling, and has the same length. -/
theorem GenerateTrials_perm_sweep (settings : CTrialSaccades) (coin : Nat → Bool)
    (rnd : Nat → Nat) (fixationGrid peripheralGrid : List SPoint) (eyePositions : CEyePositions)
    (trials : List CSaccadeTrial) :
    (GenerateTrials settings coin rnd fixationGrid peripheralGrid eyePositions trials).Perm
        (sweep settings coin fixationGrid peripheralGrid eyePositions trials)
      ∧ (GenerateTrials settings coin rnd fixationGrid peripheralGrid eyePositions trials).length
        = (sweep settings coin fixationGrid peripheralGrid eyePositions trials).length := by
  have h := random_shuffle_perm rnd
    (sweep settings coin fixationGrid peripheralGrid eyePositions trials)
  exact ⟨h, h.length_eq⟩

/-! ## Structure of the swept list -/

theorem NewPoint_NewPoint (e : CEyePositions) (x y x1 y1 : ℚ) :
    (e.NewPoint x y).NewPoint x1 y1 = e.NewPoint x1 y1 := rfl

theorem newTrial_plain_coin (settings : CTrialSaccades) (eye : STIM_EYE) (code : STIM_CODE)
    (e : CEyePositions) (p : SPoint) (b b1 : Bool) (hcode : code ∈ plainCodes) :
    newTrial settings eye code e p b = newTrial settings eye code e p b1 := by
  simp only [plainCodes, List.mem_cons, List.mem_singleton, List.mem_nil_iff, or_false] at hcode
  rcases hcode with rfl | rfl | rfl | rfl <;> cases eye <;>
    simp [newTrial, crossDeg, saccEyeDeg, isCenterRed, isCenterBlue]

theorem codeLoop_trials (settings : CTrialSaccades) (coin : Nat → Bool) (e : CEyePositions)
    (p : SPoint) (eye : STIM_EYE) (b : Bool) (codes : List STIM_CODE)
    (hcodes : ∀ c ∈ codes, c ∈ plainCodes) (s : GenState) :
    (codeLoop settings coin e p eye codes s).trials
      = s.trials ++ codes.flatMap (comboBlock settings (repeatCount settings) e p b eye) := by
  induction codes generalizing s with
  | nil => simp [codeLoop]
  | cons c rest ih =>
    have hc : c ∈ plainCodes := hcodes c (List.mem_cons_self c rest)
    have hrest : ∀ c1 ∈ rest, c1 ∈ plainCodes := fun c1 h1 => hcodes c1 (List.mem_cons_of_mem c h1)
    simp only [codeLoop, ih hrest, pushCopies_eq, List.flatMap_cons, List.append_assoc]
    rw [newTrial_plain_coin settings eye c e p (coin s.draws) b hc]
    rfl

theorem eyeLoop_trials (settings : CTrialSaccades) (coin : Nat → Bool) (e : CEyePositions)
    (p : SPoint) (b : Bool) (s : GenState) :
    (eyeLoop settings coin e p sweptEyes s).trials
      = s.trials ++ (eyesSwept settings).flatMap fun eye =>
          plainCodes.flatMap (comboBlock settings (repeatCount settings) e p b eye) := by
  cases h : settings.stimRightEye <;>
    simp [sweptEyes, eyeLoop, eyesSwept, h,
      codeLoop_trials settings coin e p _ b plainCodes (fun _ hc => hc)]

theorem perLoop_trials (settings : CTrialSaccades) (coin : Nat → Bool) (e : CEyePositions)
    (b : Bool) (grid : List SPoint) (s : GenState) :
    (perLoop settings coin e grid s).trials
      = s.trials ++ grid.flatMap fun p =>
          (eyesSwept settings).flatMap fun eye =>
            plainCodes.flatMap (comboBlock settings (repeatCount settings) e p b eye) := by
  induction grid generalizing s with
  | nil => simp [perLoop]
  | cons p rest ih =>
    simp only [perLoop, ih, eyeLoop_trials settings coin e p b, List.flatMap_cons,
      List.append_assoc]

theorem fixLoop_trials (settings : CTrialSaccades) (coin : Nat → Bool) (b : Bool)
    (per grid : List SPoint) (e : CEyePositions) (s : GenState) :
    (fixLoop settings coin per grid e s).1.trials
      = s.trials ++ sweepBlocks settings (repeatCount settings) grid per e b := by
  induction grid generalizing e s with
  | nil => simp [fixLoop, sweepBlocks]
  | cons f rest ih =>
    simp only [fixLoop, ih, perLoop_trials settings coin _ b, sweepBlocks, NewPoint_NewPoint,
      List.flatMap_cons, List.append_assoc]

theorem sweep_eq_blocks (settings : CTrialSaccades) (coin : Nat → Bool) (b : Bool)
    (fg pg : List SPoint) (e : CEyePositions) (trials : List CSaccadeTrial) :
    sweep settings coin fg pg e trials
      = trials ++ sweepBlocks settings (repeatCount settings) fg pg e b := by
  simp only [sweep, fixLoop_trials settings coin b]

theorem mem_sweepBlocks (settings : CTrialSaccades) (count : CSaccadeTrial → Nat)
    (fg pg : List SPoint) (e : CEyePositions) (b : Bool) (t : CSaccadeTrial) :
    t ∈ sweepBlocks settings count fg pg e b ↔
      ∃ f ∈ fg, ∃ p ∈ pg, ∃ eye ∈ eyesSwept settings, ∃ code ∈ plainCodes,
        0 < count (newTrial settings eye code (e.NewPoint f.xDeg f.yDeg) p b)
          ∧ t = newTrial settings eye code (e.NewPoint f.xDeg f.yDeg) p b := by
  simp only [sweepBlocks, comboBlock, List.mem_flatMap, List.mem_replicate, ne_eq,
    Nat.pos_iff_ne_zero]

theorem mem_GenerateTrials (settings : CTrialSaccades) (coin : Nat → Bool) (rnd : Nat → Nat)
    (fg pg : List SPoint) (e : CEyePositions) (b : Bool) (t : CSaccadeTrial) :
    t ∈ GenerateTrials settings coin rnd fg pg e [] ↔
      t ∈ sweepBlocks settings (repeatCount settings) fg pg e b := by
  unfold GenerateTrials
  rw [(random_shuffle_perm rnd _).mem_iff, sweep_eq_blocks settings coin b]
  simp

theorem GenerateTrials_perm_blocks (settings : CTrialSaccades) (coin : Nat → Bool)
    (rnd : Nat → Nat) (fg pg : List SPoint) (e : CEyePositions) (b : Bool) :
    (GenerateTrials settings coin rnd fg pg e []).Perm
      (sweepBlocks settings (repeatCount settings) fg pg e b) := by
  unfold GenerateTrials
  have h := random_shuffle_perm rnd (sweep settings coin fg pg e [])
  have hs : sweep settings coin fg pg e []
      = sweepBlocks settings (repeatCount settings) fg pg e b := by
    rw [sweep_eq_blocks settings coin b]; rfl
  exact hs ▸ h

theorem newTrial_mem_GenerateTrials (settings : CTrialSaccades) (coin : Nat → Bool)
    (rnd : Nat → Nat) (fg pg : List SPoint) (e : CEyePositions) (b : Bool)
    (f p : SPoint) (eye : STIM_EYE) (code : STIM_CODE)
    (hf : f ∈ fg) (hp : p ∈ pg) (heye : eye ∈ eyesSwept settings) (hcode : code ∈ plainCodes)
    (hpos : 0 < repeatCount settings (newTrial settings eye code (e.NewPoint f.xDeg f.yDeg) p b)) :
    newTrial settings eye code (e.NewPoint f.xDeg f.yDeg) p b
      ∈ GenerateTrials settings coin rnd fg pg e [] :=
  (mem_GenerateTrials settings coin rnd fg pg e b _).2
    ((mem_sweepBlocks settings _ fg pg e b _).2
      ⟨f, hf, p, hp, eye, heye, code, hcode, hpos, rfl⟩)

theorem newTrial_stimCode (settings : CTrialSaccades) (eye : STIM_EYE) (code : STIM_CODE)
    (e : CEyePositions) (p : SPoint) (b : Bool) :
    (newTrial settings eye code e p b).m_stimCode = code := rfl

theorem newTrial_stimEye (settings : CTrialSaccades) (eye : STIM_EYE) (code : STIM_CODE)
    (e : CEyePositions) (p : SPoint) (b : Bool) :
    (newTrial settings eye code e p b).m_stimEye = eye := rfl

/-- C11: started on an empty container, the list built before the shuffle is the
concatenation, over fixation points, peripheral points (all of them for every
fixation point), the swept eyes (Right, then Left unless right-only) and the codes
RedRed, RedBlue, BlueRed, BlueBlue, of `repeatCount` copies of the trial `newTrial`
builds for that combination, whatever the coin flips `coin` of the run and whatever
coin value `b` is used to rebuild the trial. -/
theorem sweep_is_concatenation (settings : CTrialSaccades) (coin : Nat → Bool) (b : Bool)
    (fixationGrid peripheralGrid : List SPoint) (e : CEyePositions) :
    sweep settings coin fixationGrid peripheralGrid e []
      = fixationGrid.flatMap fun f =>
          peripheralGrid.flatMap fun p =>
            (if settings.stimRightEye then [EYE_RIGHT] else [EYE_RIGHT, EYE_LEFT]).flatMap
              fun eye =>
                [CODE_C_RED_P_RED, CODE_C_RED_P_BLUE, CODE_C_BLUE_P_RED,
                  CODE_C_BLUE_P_BLUE].flatMap fun code =>
                  List.replicate
                    (numRepeats settings
                      (newTrial settings eye code (e.NewPoint f.xDeg f.yDeg) p b)).toNat
                    (newTrial settings eye code (e.NewPoint f.xDeg f.yDeg) p b) := by
  rw [sweep_eq_blocks settings coin b]
  rfl

/-! ## Invariants of the emitted trials -/

/-- C12: every trial `GenerateTrials` emits into an empty container carries one of
the four plain codes; neither its centre nor its peripheral component is purple. -/
theorem GenerateTrials_codes_plain (settings : CTrialSaccades) (coin : Nat → Bool)
    (rnd : Nat → Nat) (fixationGrid peripheralGrid : List SPoint) (e : CEyePositions)
    (t : CSaccadeTrial)
    (ht : t ∈ GenerateTrials settings coin rnd fixationGrid peripheralGrid e []) :
    t.m_stimCode ∈ plainCodes
      ∧ isCenterPurple t.m_stimCode = false ∧ isPeriphPurple t.m_stimCode = false := by
  rw [mem_GenerateTrials settings coin rnd fixationGrid peripheralGrid e true,
    mem_sweepBlocks] at ht
  obtain ⟨f, -, p, -, eye, -, code, hcode, -, rfl⟩ := ht
  rw [newTrial_stimCode]
  refine ⟨hcode, ?_, ?_⟩ <;>
    (simp only [plainCodes, List.mem_cons, List.mem_singleton, List.mem_nil_iff,
      or_false] at hcode
     rcases hcode with rfl | rfl | rfl | rfl <;> rfl)

/-- C12, evaluated: the right-eye RedRed trial of a one-point run is emitted and its
code is plain. -/
theorem GenerateTrials_codes_plain_witness :
    (newTrial sampleSettings EYE_RIGHT CODE_C_RED_P_RED
        ((offsetEyePositions 10 0 0).NewPoint samplePoint.xDeg samplePoint.yDeg)
        samplePoint true).m_stimCode ∈ plainCodes
      ∧ isCenterPurple (newTrial sampleSettings EYE_RIGHT CODE_C_RED_P_RED
        ((offsetEyePositions 10 0 0).NewPoint samplePoint.xDeg samplePoint.yDeg)
        samplePoint true).m_stimCode = false
      ∧ isPeriphPurple (newTrial sampleSettings EYE_RIGHT CODE_C_RED_P_RED
        ((offsetEyePositions 10 0 0).NewPoint samplePoint.xDeg samplePoint.yDeg)
        samplePoint true).m_stimCode = false :=
  GenerateTrials_codes_plain sampleSettings (fun _ => true) (fun k => k)
    [samplePoint] [samplePoint] (offsetEyePositions 10 0 0) _
    (newTrial_mem_GenerateTrials sampleSettings (fun _ => true) (fun k => k)
      [samplePoint] [samplePoint] (offsetEyePositions 10 0 0) true samplePoint samplePoint
      EYE_RIGHT CODE_C_RED_P_RED (by simp) (by simp) (by decide) (by decide) (by decide))

theorem repeatCount_pos (settings : CTrialSaccades) (t : CSaccadeTrial)
    (hstd : 0 < numRepeatsStandard settings) (hcross : 0 < numRepeatsCrossover settings) :
    0 < repeatCount settings t := by
  unfold repeatCount numRepeats
  split <;> omega

/-- C13: with the right-eye-only flag set, every trial emitted into an empty
container has stimulated eye Right; with the flag clear, non-empty grids and
positive repeat counts, a right-eye trial and a left-eye trial are both emitted. -/
theorem GenerateTrials_eyes (settings : CTrialSaccades) (coin : Nat → Bool) (rnd : Nat → Nat)
    (fixationGrid peripheralGrid : List SPoint) (e : CEyePositions) :
    (settings.stimRightEye = true →
        ∀ t ∈ GenerateTrials settings coin rnd fixationGrid peripheralGrid e [],
          t.m_stimEye = EYE_RIGHT)
      ∧ (settings.stimRightEye = false → fixationGrid ≠ [] → peripheralGrid ≠ [] →
          0 < numRepeatsStandard settings → 0 < numRepeatsCrossover settings →
          (∃ t ∈ GenerateTrials settings coin rnd fixationGrid peripheralGrid e [],
              t.m_stimEye = EYE_RIGHT)
            ∧ ∃ t ∈ GenerateTrials settings coin rnd fixationGrid peripheralGrid e [],
              t.m_stimEye = EYE_LEFT) := by
  constructor
  · intro hflag t ht
    rw [mem_GenerateTrials settings coin rnd fixationGrid peripheralGrid e true,
      mem_sweepBlocks] at ht
    obtain ⟨f, -, p, -, eye, heye, code, -, -, rfl⟩ := ht
    rw [newTrial_stimEye]
    simpa [eyesSwept, hflag] using heye
  · intro hflag hfg hpg hstd hcross
    obtain ⟨f, hf⟩ := List.exists_mem_of_ne_nil fixationGrid hfg
    obtain ⟨p, hp⟩ := List.exists_mem_of_ne_nil peripheralGrid hpg
    have hmem : ∀ eye ∈ eyesSwept settings,
        newTrial settings eye CODE_C_RED_P_RED (e.NewPoint f.xDeg f.yDeg) p true
          ∈ GenerateTrials settings coin rnd fixationGrid peripheralGrid e [] :=
      fun eye heye =>
        newTrial_mem_GenerateTrials settings coin rnd fixationGrid peripheralGrid e true f p eye
          CODE_C_RED_P_RED hf hp heye (by decide) (repeatCount_pos settings _ hstd hcross)
    exact ⟨⟨_, hmem EYE_RIGHT (by simp [eyesSwept, hflag]), rfl⟩,
      ⟨_, hmem EYE_LEFT (by simp [eyesSwept, hflag]), rfl⟩⟩

/-- C13, evaluated: a right-only run has only right-eye trials (here the emitted
right-eye BlueBlue trial), and a both-eyes one-point run emits both eyes. -/
theorem GenerateTrials_eyes_witness :
    (newTrial { sampleSettings with stimRightEye := true } EYE_RIGHT CODE_C_BLUE_P_BLUE
        ((offsetEyePositions 10 0 0).NewPoint samplePoint.xDeg samplePoint.yDeg)
        samplePoint true).m_stimEye = EYE_RIGHT
      ∧ ((∃ t ∈ GenerateTrials sampleSettings (fun _ => true) (fun k => k)
              [samplePoint] [samplePoint] (offsetEyePositions 10 0 0) [],
            t.m_stimEye = EYE_RIGHT)
          ∧ ∃ t ∈ GenerateTrials sampleSettings (fun _ => true) (fun k => k)
              [samplePoint] [samplePoint] (offsetEyePositions 10 0 0) [],
            t.m_stimEye = EYE_LEFT) :=
  ⟨(GenerateTrials_eyes { sampleSettings with stimRightEye := true } (fun _ => true)
        (fun k => k) [samplePoint] [samplePoint] (offsetEyePositions 10 0 0)).1 rfl _
      (newTrial_mem_GenerateTrials { sampleSettings with stimRightEye := true } (fun _ => true)
        (fun k => k) [samplePoint] [samplePoint] (offsetEyePositions 10 0 0) true samplePoint
        samplePoint EYE_RIGHT CODE_C_BLUE_P_BLUE (by simp) (by simp) (by decide) (by decide)
        (by decide)),
    (GenerateTrials_eyes sampleSettings (fun _ => true) (fun k => k)
        [samplePoint] [samplePoint] (offsetEyePositions 10 0 0)).2 rfl (by simp) (by simp)
        (by decide) (by decide)⟩

/-! ## Degenerate configurations -/

/-- C14: with a non-positive difficulty level the emitted list is, up to order, the
sweep with no copy of any crossover trial and `NUM_DIFFICULTY_LEVELS - 1` copies of
every standard trial, so no emitted trial is a crossover; likewise with a
non-positive standard count it is the sweep with no copy of any standard trial and
`difficulty level` copies of every crossover trial. -/
theorem GenerateTrials_nonpositive_counts (settings : CTrialSaccades) (coin : Nat → Bool)
    (rnd : Nat → Nat) (fixationGrid peripheralGrid : List SPoint) (e : CEyePositions)
    (b : Bool) :
    (numRepeatsCrossover settings ≤ 0 →
        (GenerateTrials settings coin rnd fixationGrid peripheralGrid e []).Perm
            (sweepBlocks settings
              (fun t => if isCrossover t = true then 0 else (numRepeatsStandard settings).toNat)
              fixationGrid peripheralGrid e b)
          ∧ ∀ t ∈ GenerateTrials settings coin rnd fixationGrid peripheralGrid e [],
              isCrossover t = false)
      ∧ (numRepeatsStandard settings ≤ 0 →
        (GenerateTrials settings coin rnd fixationGrid peripheralGrid e []).Perm
            (sweepBlocks settings
              (fun t => if isCrossover t = true then (numRepeatsCrossover settings).toNat else 0)
              fixationGrid peripheralGrid e b)
          ∧ ∀ t ∈ GenerateTrials settings coin rnd fixationGrid peripheralGrid e [],
              isCrossover t = true) := by
  constructor
  · intro hcross
    have hfun : repeatCount settings
        = fun t => if isCrossover t = true then 0 else (numRepeatsStandard settings).toNat := by
      funext t
      unfold repeatCount numRepeats
      split
      · omega
      · rfl
    refine ⟨hfun ▸ GenerateTrials_perm_blocks settings coin rnd fixationGrid peripheralGrid e b,
      ?_⟩
    intro t ht
    rw [mem_GenerateTrials settings coin rnd fixationGrid peripheralGrid e b,
      mem_sweepBlocks] at ht
    obtain ⟨f, -, p, -, eye, -, code, -, hpos, rfl⟩ := ht
    rw [hfun] at hpos
    by_contra hx
    have hx1 : isCrossover (newTrial settings eye code (e.NewPoint f.xDeg f.yDeg) p b) = true := by
      simpa using hx
    simp [hx1] at hpos
  · intro hstd
    have hfun : repeatCount settings
        = fun t => if isCrossover t = true then (numRepeatsCrossover settings).toNat else 0 := by
      funext t
      unfold repeatCount numRepeats
      split
      · rfl
      · omega
    refine ⟨hfun ▸ GenerateTrials_perm_blocks settings coin rnd fixationGrid peripheralGrid e b,
      ?_⟩
    intro t ht
    rw [mem_GenerateTrials settings coin rnd fixationGrid peripheralGrid e b,
      mem_sweepBlocks] at ht
    obtain ⟨f, -, p, -, eye, -, code, -, hpos, rfl⟩ := ht
    rw [hfun] at hpos
    by_contra hx
    simp [hx] at hpos

/-- C14, evaluated: difficulty level -1 with standard count 3, and standard count 0
(one difficulty level) with difficulty level 2. -/
theorem GenerateTrials_nonpositive_counts_witness :
    ((GenerateTrials { sampleSettings with difficultyLevel := -1 } (fun _ => true) (fun k => k)
          [samplePoint] [samplePoint] (offsetEyePositions 10 0 0) []).Perm
        (sweepBlocks { sampleSettings with difficultyLevel := -1 }
          (fun t => if isCrossover t = true then 0
            else (numRepeatsStandard { sampleSettings with difficultyLevel := -1 }).toNat)
          [samplePoint] [samplePoint] (offsetEyePositions 10 0 0) true))
      ∧ ∀ t ∈ GenerateTrials { sampleSettings with NUM_DIFFICULTY_LEVELS := 1 } (fun _ => true)
          (fun k => k) [samplePoint] [samplePoint] (offsetEyePositions 10 0 0) [],
          isCrossover t = true :=
  ⟨((GenerateTrials_nonpositive_counts { sampleSettings with difficultyLevel := -1 }
        (fun _ => true) (fun k => k) [samplePoint] [samplePoint] (offsetEyePositions 10 0 0)
        true).1 (by decide)).1,
    ((GenerateTrials_nonpositive_counts { sampleSettings with NUM_DIFFICULTY_LEVELS := 1 }
        (fun _ => true) (fun k => k) [samplePoint] [samplePoint] (offsetEyePositions 10 0 0)
        true).2 (by decide)).2⟩

/-- C15: with an empty fixation grid or an empty peripheral grid, `GenerateTrials`
started on an empty container returns the empty list, for all settings. -/
theorem GenerateTrials_empty_grid (settings : CTrialSaccades) (coin : Nat → Bool)
    (rnd : Nat → Nat) (fixationGrid peripheralGrid : List SPoint) (e : CEyePositions)
    (hempty : fixationGrid = [] ∨ peripheralGrid = []) :
    GenerateTrials settings coin rnd fixationGrid peripheralGrid e [] = [] := by
  apply List.eq_nil_of_length_eq_zero
  unfold GenerateTrials
  rw [(random_shuffle_perm rnd _).length_eq, sweep_length]
  rcases hempty with h | h <;> simp [h]

/-- C15, evaluated: three fixation points and no peripheral point. -/
theorem GenerateTrials_empty_grid_witness :
    GenerateTrials sampleSettings (fun _ => true) (fun k => k)
      [samplePoint, samplePoint, samplePoint] [] (offsetEyePositions 10 0 0) [] = [] :=
  GenerateTrials_empty_grid sampleSettings (fun _ => true) (fun k => k)
    [samplePoint, samplePoint, samplePoint] [] (offsetEyePositions 10 0 0) (Or.inr rfl)

/-! ## Frame properties of trial construction -/

/-- C16: when `useApprox` is false, the peripheral target of the trial `newTrial`
returns is the raw peripheral vector, for every eye, code, eye-position object and
coin flip. -/
theorem newTrial_no_approx (settings : CTrialSaccades) (eye : STIM_EYE) (code : STIM_CODE)
    (e : CEyePositions) (p : SPoint) (b : Bool) (happrox : settings.useApprox = false) :
    (newTrial settings eye code e p b).m_perXDeg = p.xDeg
      ∧ (newTrial settings eye code e p b).m_perYDeg = p.yDeg := by
  simp [newTrial, happrox]

/-- C16, evaluated: a left-eye purple-centre trial outside approximation mode. -/
theorem newTrial_no_approx_witness :
    (newTrial { sampleSettings with useApprox := false } EYE_LEFT CODE_C_PURPLE_P_RED
        (offsetEyePositions 10 3 1) samplePoint false).m_perXDeg = samplePoint.xDeg
      ∧ (newTrial { sampleSettings with useApprox := false } EYE_LEFT CODE_C_PURPLE_P_RED
        (offsetEyePositions 10 3 1) samplePoint false).m_perYDeg = samplePoint.yDeg :=
  newTrial_no_approx { sampleSettings with useApprox := false } EYE_LEFT CODE_C_PURPLE_P_RED
    (offsetEyePositions 10 3 1) samplePoint false rfl

/-- C17: the trial `newTrial` returns carries the input eye and code, and the input
vector's angle and radius, in both modes; two calls that differ only in the settings
(so in `useApprox`) agree on every field except `perXDeg` and `perYDeg`. -/
theorem newTrial_frame (settings settings1 : CTrialSaccades) (eye : STIM_EYE)
    (code : STIM_CODE) (e : CEyePositions) (p : SPoint) (b : Bool) :
    (newTrial settings eye code e p b).m_stimEye = eye
      ∧ (newTrial settings eye code e p b).m_stimCode = code
      ∧ (newTrial settings eye code e p b).m_perADeg = p.aDeg
      ∧ (newTrial settings eye code e p b).m_perRDeg = p.rDeg
      ∧ { newTrial settings1 eye code e p b with
            m_perXDeg := (newTrial settings eye code e p b).m_perXDeg,
            m_perYDeg := (newTrial settings eye code e p b).m_perYDeg }
          = newTrial settings eye code e p b :=
  ⟨rfl, rfl, rfl, rfl, rfl⟩

/-! ## Message codes -/

theorem andFF_eq_emod (x : Int) : andFF x = x % 256 := by
  unfold andFF
  have h : (x % 4294967296).toNat &&& 0xFF = (x % 4294967296).toNat % 256 :=
    Nat.and_pow_two_sub_one_eq_mod _ 8
  have hnn : 0 ≤ x % 4294967296 := Int.emod_nonneg x (by norm_num)
  rw [h]
  push_cast
  rw [Int.toNat_of_nonneg hnn]
  omega

theorem andFF_bounds (x : Int) : 0 ≤ andFF x ∧ andFF x ≤ 255 := by
  rw [andFF_eq_emod]
  omega

theorem truncInt_of_nonneg (x : ℚ) (hx : 0 ≤ x) : truncInt x = ⌊x⌋ := by
  unfold truncInt
  rw [Rat.floor_def]
  exact Int.tdiv_eq_ediv (Rat.num_nonneg.mpr hx) (Int.ofNat_nonneg _)

theorem truncInt_intCast (n : Int) : truncInt (n : ℚ) = n := by
  simp [truncInt]

/-! ### Evaluating the rounding -/

theorem binaryExponent_eq {q : ℚ} {e : ℤ} (hq : q ≠ 0) (h1 : (2 : ℚ) ^ e ≤ |q|)
    (h2 : |q| < (2 : ℚ) ^ (e + 1)) : binaryExponent q = e := by
  have hpos : 0 < |q| := abs_pos.mpr hq
  have hle : e ≤ Int.log 2 |q| :=
    (Int.zpow_le_iff_le_log (by norm_num) hpos).1 (by simpa using h1)
  have hlt : Int.log 2 |q| < e + 1 :=
    (Int.lt_zpow_iff_log_lt (by norm_num) hpos).1 (by simpa using h2)
  unfold binaryExponent
  omega

theorem roundHalfEven_eq {x : ℚ} {m : ℤ} (h : |x - m| < 1 / 2) : roundHalfEven x = m := by
  obtain ⟨hlo, hhi⟩ := abs_lt.mp h
  unfold roundHalfEven
  rcases le_or_lt (m : ℚ) x with hx | hx
  · have hfl : ⌊x⌋ = m := Int.floor_eq_iff.mpr ⟨hx, by linarith⟩
    rw [hfl, if_pos (by linarith)]
  · have hfl : ⌊x⌋ = m - 1 :=
      Int.floor_eq_iff.mpr ⟨by push_cast; linarith, by push_cast; linarith⟩
    rw [hfl]
    have h1 : ¬ (x - ((m - 1 : ℤ) : ℚ) < 1 / 2) := by push_cast; linarith
    have h2 : 1 / 2 < x - ((m - 1 : ℤ) : ℚ) := by push_cast; linarith
    rw [if_neg h1, if_pos h2]
    omega

theorem roundDouble_eq {q : ℚ} (e m : ℤ) (hq : q ≠ 0) (he : -1022 ≤ e)
    (h1 : (2 : ℚ) ^ e ≤ |q|) (h2 : |q| < (2 : ℚ) ^ (e + 1))
    (hm : |q / 2 ^ (e - 52) - m| < 1 / 2) : roundDouble q = m * 2 ^ (e - 52) := by
  unfold roundDouble
  rw [if_neg hq, binaryExponent_eq hq h1 h2, max_eq_left he, roundHalfEven_eq hm]

theorem roundDouble_decimal_fixtures :
    roundDouble (51 / 10) = double5p1 ∧ roundDouble (1 / 10) = double0p1 := by
  constructor
  · rw [roundDouble_eq 2 5742089524897382 (by norm_num) (by norm_num)
      (by rw [abs_of_pos (by norm_num)]; norm_num) (by rw [abs_of_pos (by norm_num)]; norm_num)
      (by rw [abs_lt]; constructor <;> norm_num)]
    norm_num [double5p1]
  · rw [roundDouble_eq (-4) 7205759403792794 (by norm_num) (by norm_num)
      (by rw [abs_of_pos (by norm_num)]; norm_num) (by rw [abs_of_pos (by norm_num)]; norm_num)
      (by rw [abs_lt]; constructor <;> norm_num)]
    norm_num [double0p1]

theorem doubleSub_decimal_example : doubleSub double5p1 double0p1 = 5 := by
  have hq : double5p1 - double0p1 = 180143985094819827 / 36028797018963968 := by
    norm_num [double5p1, double0p1]
  unfold doubleSub
  rw [hq, roundDouble_eq 2 5629499534213120 (by norm_num) (by norm_num)
    (by rw [abs_of_pos (by norm_num)]; norm_num) (by rw [abs_of_pos (by norm_num)]; norm_num)
    (by rw [abs_lt]; constructor <;> norm_num)]
  norm_num

theorem floor_exact_difference_decimal_example : ⌊double5p1 - double0p1⌋ = 4 := by
  have hq : double5p1 - double0p1 = 180143985094819827 / 36028797018963968 := by
    norm_num [double5p1, double0p1]
  rw [hq]
  exact Int.floor_eq_iff.mpr ⟨by norm_num, by norm_num⟩

theorem doubleSub_decimal_example_range :
    0 ≤ doubleSub double5p1 double0p1 ∧ doubleSub double5p1 double0p1 < 360 := by
  rw [doubleSub_decimal_example]
  norm_num

theorem truncInt_doubleSub_95 : truncInt (doubleSub 95 0) = 95 := by
  have hq : doubleSub 95 0 = ((95 : Int) : ℚ) := by
    unfold doubleSub
    rw [sub_zero, roundDouble_eq 6 (95 * 2 ^ 46) (by norm_num) (by norm_num)
      (by rw [abs_of_pos (by norm_num)]; norm_num) (by rw [abs_of_pos (by norm_num)]; norm_num)
      (by rw [abs_lt]; constructor <;> norm_num)]
    norm_num
  rw [hq, truncInt_intCast]

theorem truncInt_doubleSub_neg1000 : truncInt (doubleSub (-1000) 0) = -1000 := by
  have hq : doubleSub (-1000) 0 = ((-1000 : Int) : ℚ) := by
    unfold doubleSub
    rw [sub_zero, roundDouble_eq 9 (-1000 * 2 ^ 43) (by norm_num) (by norm_num)
      (by rw [abs_of_neg (by norm_num)]; norm_num) (by rw [abs_of_neg (by norm_num)]; norm_num)
      (by rw [abs_lt]; constructor <;> norm_num)]
    norm_num
  rw [hq, truncInt_intCast]

/-- C18: whenever the difference the code computes (the `double` difference
`angleDeg - offsetDeg`, resp. `radiusDeg - offsetDeg`) truncates to a representable
`int`, `angleToCode` and `radiusToCode` return a value between 0 and 255; and when
that difference `d` satisfies `0 <= d < 360`, `angleToCode` returns
`0x21 + floor(d) / 5`. -/
theorem codes_fit_byte (angleDeg radiusDeg offsetDeg : ℚ) :
    (-2147483648 ≤ truncInt (doubleSub angleDeg offsetDeg) →
        truncInt (doubleSub angleDeg offsetDeg) ≤ 2147483647 →
        ∃ r, angleToCode angleDeg offsetDeg = some r ∧ 0 ≤ r ∧ r ≤ 255)
      ∧ (-2147483648 ≤ truncInt (doubleSub radiusDeg offsetDeg) →
        truncInt (doubleSub radiusDeg offsetDeg) ≤ 2147483647 →
        ∃ r, radiusToCode radiusDeg offsetDeg = some r ∧ 0 ≤ r ∧ r ≤ 255)
      ∧ (0 ≤ doubleSub angleDeg offsetDeg → doubleSub angleDeg offsetDeg < 360 →
        angleToCode angleDeg offsetDeg
          = some (0x21 + ⌊doubleSub angleDeg offsetDeg⌋ / 5)) := by
  refine ⟨?_, ?_, ?_⟩
  · intro hlo hhi
    refine ⟨andFF (0x21 + Int.tdiv (Int.tmod (truncInt (doubleSub angleDeg offsetDeg)) 360) 5),
      ?_, andFF_bounds _⟩
    simp only [angleToCode, castInt, hlo, hhi, and_self, if_true, Option.map_some']
  · intro hlo hhi
    refine ⟨andFF (0x21 + Int.tdiv (truncInt (doubleSub radiusDeg offsetDeg)) 5), ?_,
      andFF_bounds _⟩
    simp only [radiusToCode, castInt, hlo, hhi, and_self, if_true, Option.map_some']
  · intro h0 h360
    have htr := truncInt_of_nonneg _ h0
    have hf0 : 0 ≤ ⌊doubleSub angleDeg offsetDeg⌋ := Int.floor_nonneg.mpr h0
    have hf360 : ⌊doubleSub angleDeg offsetDeg⌋ < 360 :=
      Int.floor_lt.mpr (by exact_mod_cast h360)
    have hmod : Int.tmod ⌊doubleSub angleDeg offsetDeg⌋ 360
        = ⌊doubleSub angleDeg offsetDeg⌋ := by
      rw [Int.tmod_eq_emod hf0 (by norm_num)]
      exact Int.emod_eq_of_lt hf0 hf360
    have hdiv : Int.tdiv ⌊doubleSub angleDeg offsetDeg⌋ 5
        = ⌊doubleSub angleDeg offsetDeg⌋ / 5 :=
      Int.tdiv_eq_ediv hf0 (by norm_num)
    have hin : -2147483648 ≤ ⌊doubleSub angleDeg offsetDeg⌋
        ∧ ⌊doubleSub angleDeg offsetDeg⌋ ≤ 2147483647 := by
      constructor <;> omega
    simp only [angleToCode, castInt, htr, hin, and_self, if_true, Option.map_some', hmod, hdiv,
      andFF_eq_emod]
    congr 1
    omega

/-- C18, evaluated: angle 95 with offset 0 and radius -1000 with offset 0 fit a byte;
for the doubles nearest to 5.1 and 0.1 the computed difference is 5, so the angle
code is `0x21 + 5 / 5 = 34`. -/
theorem codes_fit_byte_witness :
    (∃ r, angleToCode 95 0 = some r ∧ 0 ≤ r ∧ r ≤ 255)
      ∧ (∃ r, radiusToCode (-1000) 0 = some r ∧ 0 ≤ r ∧ r ≤ 255)
      ∧ angleToCode double5p1 double0p1 = some 34 := by
  have h1 := (codes_fit_byte 95 (-1000) 0).1
    (by rw [truncInt_doubleSub_95]; decide) (by rw [truncInt_doubleSub_95]; decide)
  have h2 := (codes_fit_byte 95 (-1000) 0).2.1
    (by rw [truncInt_doubleSub_neg1000]; decide) (by rw [truncInt_doubleSub_neg1000]; decide)
  have h3 := (codes_fit_byte double5p1 0 double0p1).2.2
    doubleSub_decimal_example_range.1 doubleSub_decimal_example_range.2
  rw [doubleSub_decimal_example] at h3
  have hfloor : ⌊(5 : ℚ)⌋ = 5 := Int.floor_eq_iff.mpr ⟨by norm_num, by norm_num⟩
  rw [hfloor] at h3
  exact ⟨h1, h2, h3⟩

/-! ## Repeat-count policy -/

theorem countP_flatMap_const {α β : Type} (q : β → Bool) (f : α → List β) (c : Nat)
    (l : List α) (h : ∀ a, List.countP q (f a) = c) :
    List.countP q (l.flatMap f) = l.length * c := by
  induction l with
  | nil => simp
  | cons a rest ih =>
    simp only [List.flatMap_cons, List.countP_append, h, ih, List.length_cons]
    ring

theorem countP_eyeBlocks (settings : CTrialSaccades) (e : CEyePositions) (p : SPoint) (b : Bool)
    (eye0 : STIM_EYE) (code0 : STIM_CODE) :
    List.countP (hasEyeCode eye0 code0)
        ((eyesSwept settings).flatMap fun eye =>
          plainCodes.flatMap (comboBlock settings (repeatCount settings) e p b eye))
      = copiesFor settings eye0 code0 := by
  cases h : settings.stimRightEye <;> cases eye0 <;> cases code0 <;>
    simp [eyesSwept, plainCodes, comboBlock, List.countP_replicate, hasEyeCode, copiesFor,
      isCrossoverFor, repeatCount, numRepeats, numRepeatsStandard, numRepeatsCrossover,
      isCrossover, newTrial, isPeriphBlue, isPeriphRed, h]

theorem countP_sweepBlocks (settings : CTrialSaccades) (fg pg : List SPoint)
    (e : CEyePositions) (b : Bool) (eye0 : STIM_EYE) (code0 : STIM_CODE) :
    List.countP (hasEyeCode eye0 code0) (sweepBlocks settings (repeatCount settings) fg pg e b)
      = fg.length * (pg.length * copiesFor settings eye0 code0) := by
  unfold sweepBlocks
  apply countP_flatMap_const
  intro f
  apply countP_flatMap_const
  intro p
  exact countP_eyeBlocks settings _ p b eye0 code0

theorem countP_GenerateTrials (settings : CTrialSaccades) (coin : Nat → Bool) (rnd : Nat → Nat)
    (fg pg : List SPoint) (e : CEyePositions) (eye0 : STIM_EYE) (code0 : STIM_CODE) :
    List.countP (hasEyeCode eye0 code0) (GenerateTrials settings coin rnd fg pg e [])
      = fg.length * (pg.length * copiesFor settings eye0 code0) := by
  rw [(GenerateTrials_perm_blocks settings coin rnd fg pg e true).countP_eq,
    countP_sweepBlocks]

theorem copiesFor_congr (s1 s2 : CTrialSaccades)
    (hlevels : s1.NUM_DIFFICULTY_LEVELS = s2.NUM_DIFFICULTY_LEVELS)
    (hdiff : s1.difficultyLevel = s2.difficultyLevel)
    (hflag : s1.stimRightEye = s2.stimRightEye) (eye : STIM_EYE) (code : STIM_CODE) :
    copiesFor s1 eye code = copiesFor s2 eye code := by
  simp [copiesFor, eyesSwept, hlevels, hdiff, hflag]

/-- C19: the repeat count chosen for a combination is the difficulty level when the
eye and the code's peripheral colour make a crossover and
`NUM_DIFFICULTY_LEVELS - 1` otherwise, and the code loop appends that many copies;
so two runs with the same grid sizes, flag and counts emit the same number of trials
for every (eye, code) pair, whatever their grid coordinates, eye-position objects,
`useApprox`, coin flips and shuffle draws. -/
theorem GenerateTrials_policy (s1 s2 : CTrialSaccades) (coin1 coin2 : Nat → Bool)
    (rnd1 rnd2 : Nat → Nat) (fg1 fg2 pg1 pg2 : List SPoint) (e1 e2 : CEyePositions)
    (eye : STIM_EYE) (code : STIM_CODE)
    (hlevels : s1.NUM_DIFFICULTY_LEVELS = s2.NUM_DIFFICULTY_LEVELS)
    (hdiff : s1.difficultyLevel = s2.difficultyLevel)
    (hflag : s1.stimRightEye = s2.stimRightEye)
    (hfg : fg1.length = fg2.length) (hpg : pg1.length = pg2.length) :
    (∀ (e : CEyePositions) (p : SPoint) (b : Bool),
        numRepeats s1 (newTrial s1 eye code e p b)
          = if isCrossoverFor eye code = true then s1.difficultyLevel
            else s1.NUM_DIFFICULTY_LEVELS - 1)
      ∧ (∀ (e : CEyePositions) (p : SPoint) (st : GenState),
        (codeLoop s1 coin1 e p eye [code] st).trials
          = st.trials ++ List.replicate
              (numRepeats s1 (newTrial s1 eye code e p (coin1 st.draws))).toNat
              (newTrial s1 eye code e p (coin1 st.draws)))
      ∧ List.countP (hasEyeCode eye code) (GenerateTrials s1 coin1 rnd1 fg1 pg1 e1 [])
          = List.countP (hasEyeCode eye code) (GenerateTrials s2 coin2 rnd2 fg2 pg2 e2 []) := by
  refine ⟨?_, ?_, ?_⟩
  · intro e p b
    cases eye <;>
      simp [numRepeats, numRepeatsStandard, numRepeatsCrossover, isCrossover, isCrossoverFor,
        newTrial]
  · intro e p st
    simp [codeLoop, pushCopies_eq]
  · rw [countP_GenerateTrials, countP_GenerateTrials, hfg, hpg,
      copiesFor_congr s1 s2 hlevels hdiff hflag]

/-- C19, evaluated: two runs over one-by-two grids that differ in grid coordinates,
deviation, eye-position object, mode, coin flips and shuffle draws emit equally many
left-eye RedRed trials. -/
theorem GenerateTrials_policy_witness :
    List.countP (hasEyeCode EYE_LEFT CODE_C_RED_P_RED)
        (GenerateTrials sampleSettings (fun _ => true) (fun k => k)
          [samplePoint] [samplePoint, samplePoint2] (offsetEyePositions 10 0 0) [])
      = List.countP (hasEyeCode EYE_LEFT CODE_C_RED_P_RED)
        (GenerateTrials { sampleSettings with useApprox := false } (fun _ => false)
          (fun k => 3 * k + 1) [samplePoint2] [samplePoint2, samplePoint2]
          (halfOffsetEyePositions 4 1 1) []) :=
  (GenerateTrials_policy sampleSettings { sampleSettings with useApprox := false }
    (fun _ => true) (fun _ => false) (fun k => k) (fun k => 3 * k + 1)
    [samplePoint] [samplePoint2] [samplePoint, samplePoint2] [samplePoint2, samplePoint2]
    (offsetEyePositions 10 0 0) (halfOffsetEyePositions 4 1 1) EYE_LEFT CODE_C_RED_P_RED
    rfl rfl rfl rfl rfl).2.2

/-! ## UDP listener dialog -/

theorem getLocalUdpPort_always_default (windowText : String) :
    getLocalUdpPort windowText
      = { alert := some "UDP port must be a positive integer.", returned := 12345 } := by
  simp [getLocalUdpPort]

/-- C20, evaluated at the failing input: with the field holding `8080`, the parse
yields 8080 and consumes all four characters, yet `getLocalUdpPort` shows its message
and returns 12345. -/
theorem getLocalUdpPort_valid_port_divergence :
    tcstol (Trim "8080".data) = (8080, 4)
      ∧ getLocalUdpPort "8080"
        = { alert := some "UDP port must be a positive integer.", returned := 12345 } := by
  constructor
  · decide
  · rfl

/-! ## Symmetry of the crossover classification between the eyes -/

theorem countP_crossover_eyeBlocks (settings : CTrialSaccades) (e : CEyePositions) (p : SPoint)
    (b : Bool) (eye0 : STIM_EYE) :
    List.countP (isCrossoverOfEye eye0)
        ((eyesSwept settings).flatMap fun eye =>
          plainCodes.flatMap (comboBlock settings (repeatCount settings) e p b eye))
      = crossoverCopies settings eye0 := by
  cases h : settings.stimRightEye <;> cases eye0 <;>
    simp [eyesSwept, plainCodes, comboBlock, List.countP_replicate, isCrossoverOfEye,
      crossoverCopies, repeatCount, numRepeats, isCrossover, newTrial, isPeriphBlue,
      isPeriphRed, h] <;> omega

theorem countP_crossover_GenerateTrials (settings : CTrialSaccades) (coin : Nat → Bool)
    (rnd : Nat → Nat) (fg pg : List SPoint) (e : CEyePositions) (eye0 : STIM_EYE) :
    List.countP (isCrossoverOfEye eye0) (GenerateTrials settings coin rnd fg pg e [])
      = fg.length * (pg.length * crossoverCopies settings eye0) := by
  rw [(GenerateTrials_perm_blocks settings coin rnd fg pg e true).countP_eq]
  unfold sweepBlocks
  apply countP_flatMap_const
  intro f
  apply countP_flatMap_const
  intro p
  exact countP_crossover_eyeBlocks settings _ p true eye0

/-- C21: for a plain code, the right-eye trial is a crossover exactly when the
left-eye trial with the same code is not, whatever their coordinates; for each eye
exactly two of the four plain codes give a crossover; and with both eyes swept,
`GenerateTrials` emits as many right-eye crossover trials as left-eye ones. -/
theorem isCrossover_eye_symmetry (settings : CTrialSaccades) (coin : Nat → Bool)
    (rnd : Nat → Nat) (fixationGrid peripheralGrid : List SPoint) (e : CEyePositions)
    (tR tL : CSaccadeTrial) :
    (tR.m_stimEye = EYE_RIGHT → tL.m_stimEye = EYE_LEFT → tR.m_stimCode = tL.m_stimCode →
        tR.m_stimCode ∈ plainCodes → isCrossover tR = !isCrossover tL)
      ∧ (plainCodes.filter fun code => isCrossover { tR with m_stimCode := code }).length = 2
      ∧ (settings.stimRightEye = false →
          List.countP (isCrossoverOfEye EYE_RIGHT)
              (GenerateTrials settings coin rnd fixationGrid peripheralGrid e [])
            = List.countP (isCrossoverOfEye EYE_LEFT)
              (GenerateTrials settings coin rnd fixationGrid peripheralGrid e [])) := by
  refine ⟨?_, ?_, ?_⟩
  · intro hR hL hcode hplain
    simp only [plainCodes, List.mem_cons, List.mem_singleton, List.mem_nil_iff,
      or_false] at hplain
    rcases hplain with h | h | h | h <;>
      simp [isCrossover, hR, hL, ← hcode, h, isPeriphBlue, isPeriphRed]
  · cases h : tR.m_stimEye <;>
      simp [plainCodes, List.filter, isCrossover, h, isPeriphBlue, isPeriphRed]
  · intro hflag
    rw [countP_crossover_GenerateTrials, countP_crossover_GenerateTrials]
    simp [crossoverCopies, eyesSwept, hflag]

/-- C21, evaluated: a right-eye and a left-eye RedBlue trial at different
coordinates, and the crossover counts of a two-by-one run with both eyes. -/
theorem isCrossover_eye_symmetry_witness :
    isCrossover ⟨CODE_C_RED_P_BLUE, EYE_RIGHT, 0, 0, 5, 0, 90, 5⟩
        = !isCrossover ⟨CODE_C_RED_P_BLUE, EYE_LEFT, 1, 2, -3, 4, 323, 5⟩
      ∧ List.countP (isCrossoverOfEye EYE_RIGHT)
          (GenerateTrials sampleSettings (fun _ => true) (fun k => k)
            [samplePoint, samplePoint2] [samplePoint] (offsetEyePositions 10 0 0) [])
        = List.countP (isCrossoverOfEye EYE_LEFT)
          (GenerateTrials sampleSettings (fun _ => true) (fun k => k)
            [samplePoint, samplePoint2] [samplePoint] (offsetEyePositions 10 0 0) []) :=
  ⟨(isCrossover_eye_symmetry sampleSettings (fun _ => true) (fun k => k)
      [samplePoint, samplePoint2] [samplePoint] (offsetEyePositions 10 0 0)
      ⟨CODE_C_RED_P_BLUE, EYE_RIGHT, 0, 0, 5, 0, 90, 5⟩
      ⟨CODE_C_RED_P_BLUE, EYE_LEFT, 1, 2, -3, 4, 323, 5⟩).1 rfl rfl rfl (by decide),
    (isCrossover_eye_symmetry sampleSettings (fun _ => true) (fun k => k)
      [samplePoint, samplePoint2] [samplePoint] (offsetEyePositions 10 0 0)
      ⟨CODE_C_RED_P_BLUE, EYE_RIGHT, 0, 0, 5, 0, 90, 5⟩
      ⟨CODE_C_RED_P_BLUE, EYE_LEFT, 1, 2, -3, 4, 323, 5⟩).2.2 rfl⟩

/-! ## Midline classification at zero deviation and across peripheral colours -/

/-- C22: at deviation 0, for a plain code, `isOverMidline` returns `perXDeg < 0` when
the peripheral colour is Red and `perXDeg > 0` when it is Blue, whatever the centre
colour, the eye and `ctrXDeg`; and at any deviation, two trials with plain codes that
differ only in peripheral colour (`cr` Red, `cb` Blue, same centre) are never both
over the midline, and are both not over it exactly when the corrected X equals the
threshold. -/
theorem isOverMidline_peripheral_colour (t : CSaccadeTrial) (d : ℚ) (cr cb : STIM_CODE) :
    (t.m_stimCode ∈ plainCodes → isPeriphRed t.m_stimCode = true →
        (isOverMidline t 0).returned = decide (t.m_perXDeg < 0))
      ∧ (t.m_stimCode ∈ plainCodes → isPeriphBlue t.m_stimCode = true →
        (isOverMidline t 0).returned = decide (t.m_perXDeg > 0))
      ∧ (cr ∈ plainCodes → cb ∈ plainCodes → isPeriphRed cr = true → isPeriphBlue cb = true →
          isCenterRed cr = isCenterRed cb →
          ¬ ((isOverMidline { t with m_stimCode := cr } d).returned = true
              ∧ (isOverMidline { t with m_stimCode := cb } d).returned = true)
            ∧ (((isOverMidline { t with m_stimCode := cr } d).returned = false
                ∧ (isOverMidline { t with m_stimCode := cb } d).returned = false)
              ↔ t.m_perXDeg + t.m_ctrXDeg + specCorrection { t with m_stimCode := cr } d
                  = midlineThreshold { t with m_stimCode := cr } d)) := by
  have hhalf : (1 / 2 : ℚ) * d = d / 2 := by ring
  refine ⟨?_, ?_, ?_⟩
  · intro hplain hred
    simp only [plainCodes, List.mem_cons, List.mem_singleton, List.mem_nil_iff,
      or_false] at hplain
    rcases hplain with h | h | h | h <;> simp [h, isPeriphRed] at hred <;>
      cases heye : t.m_stimEye <;>
      simp [isOverMidline, midlineTargetXDeg, h, heye, isCenterRed, isCenterBlue]
  · intro hplain hblue
    simp only [plainCodes, List.mem_cons, List.mem_singleton, List.mem_nil_iff,
      or_false] at hplain
    rcases hplain with h | h | h | h <;> simp [h, isPeriphBlue] at hblue <;>
      cases heye : t.m_stimEye <;>
      simp [isOverMidline, midlineTargetXDeg, h, heye, isCenterRed, isCenterBlue]
  · intro hr hb hred hblue hcentre
    simp only [plainCodes, List.mem_cons, List.mem_singleton, List.mem_nil_iff,
      or_false] at hr hb
    rcases hr with rfl | rfl | rfl | rfl <;> simp [isPeriphRed] at hred <;>
      rcases hb with rfl | rfl | rfl | rfl <;> simp [isPeriphBlue] at hblue <;>
      simp [isCenterRed] at hcentre <;>
      simp only [isOverMidline, midlineTargetXDeg_eq, midlineThreshold, isCenterRed, hhalf,
        decide_eq_true_eq, decide_eq_false_iff_not, not_lt, gt_iff_lt, if_true,
        Bool.false_eq_true, if_false] <;>
      exact ⟨fun hboth => absurd (lt_trans hboth.1 hboth.2) (lt_irrefl _),
        fun hboth => le_antisymm hboth.2 hboth.1, fun heq => ⟨heq.ge, heq.le⟩⟩

/-- C22, evaluated: a left-eye BlueRed trial at deviation 0, and the left-eye pair
RedRed / RedBlue at deviation 10, whose corrected X is 2 + 1 - 10 against the
threshold 1 - 5. -/
theorem isOverMidline_peripheral_colour_witness :
    (isOverMidline ⟨CODE_C_BLUE_P_RED, EYE_LEFT, 1, 0, 2, 0, 90, 2⟩ 0).returned
        = decide ((2 : ℚ) < 0)
      ∧ ¬ ((isOverMidline ⟨CODE_C_RED_P_RED, EYE_LEFT, 1, 0, 2, 0, 90, 2⟩ 10).returned = true
          ∧ (isOverMidline ⟨CODE_C_RED_P_BLUE, EYE_LEFT, 1, 0, 2, 0, 90, 2⟩ 10).returned = true) :=
  ⟨(isOverMidline_peripheral_colour ⟨CODE_C_BLUE_P_RED, EYE_LEFT, 1, 0, 2, 0, 90, 2⟩ 10
      CODE_C_RED_P_RED CODE_C_RED_P_BLUE).1 (by decide) rfl,
    ((isOverMidline_peripheral_colour ⟨CODE_C_RED_P_RED, EYE_LEFT, 1, 0, 2, 0, 90, 2⟩ 10
      CODE_C_RED_P_RED CODE_C_RED_P_BLUE).2.2 (by decide) (by decide) rfl rfl rfl).1⟩

end RFMapping
